import Mathlib

/-!
# HealthApp: account, credential and profile-record service

A shallow embedding of `backend/server.js` (the Express handlers over the
`User` collection) and of `calculateDosha` from `frontend/src/App.js`, with
the properties of the specification stated over it.

Conventions of the embedding

* The `User` collection is a list of documents in insertion order; the unique
  index on `email` is what `save` checks.
* A request body is a record of optional fields (`undefined` is `none`);
  `email` and `password`, which login hands to the query and to bcrypt as they
  come, are JSON values (`JsonValue`); the other scalar fields hold strings,
  `personal` and `health` values of the schema's shape.
* `bcryptjs` and `jsonwebtoken` are libraries: their functions are parameters
  (`Bcrypt`, `Jwt`); what the handlers do with them is modelled from the
  source. The treatment of `undefined` update keys by Mongoose is a parameter
  too (`UndefinedKeys`).
* The server clock is read in milliseconds (`Date.now()`, `new Date()`); the
  `iat` and `exp` claims of a token are whole seconds.
* A handler behind `authMiddleware` is a function of the verified payload
  (`req.user`) and the store; the middleware takes it as its continuation.
-/

namespace HealthApp

/-! ## Frontend: the quiz tally (`App.js`, `calculateDosha`) -/

/-- The object `counts = { vata: 0, pitta: 0, kapha: 0 }`. -/
structure Counts where
  vata : Nat
  pitta : Nat
  kapha : Nat
  deriving DecidableEq, Repr

/-- The statement `counts[value]++`: a value other than the three keys adds a
property of its own and leaves the three counters as they are. -/
def Counts.incr (counts : Counts) (value : String) : Counts :=
  if value = "vata" then { counts with vata := counts.vata + 1 }
  else if value = "pitta" then { counts with pitta := counts.pitta + 1 }
  else if value = "kapha" then { counts with kapha := counts.kapha + 1 }
  else counts

/-- The lookup `counts[key]` for a key that is one of the three labels. -/
def Counts.get (counts : Counts) (key : String) : Nat :=
  if key = "vata" then counts.vata
  else if key = "pitta" then counts.pitta
  else counts.kapha

/-- The function `calculateDosha`, with `answers` standing for
`Object.values(answers)`: tally, then two sequential strict comparisons. -/
def calculateDosha (answers : List String) : String :=
  let counts := answers.foldl Counts.incr ⟨0, 0, 0⟩
  let dominantDosha := "vata"
  let dominantDosha :=
    if counts.pitta > counts.get dominantDosha then "pitta" else dominantDosha
  let dominantDosha :=
    if counts.kapha > counts.get dominantDosha then "kapha" else dominantDosha
  dominantDosha

/-- The tally as the specification words it: the label with the greatest
count, ties resolved by the priority vata, pitta, kapha. -/
def referenceTally (cv cp ck : Nat) : String :=
  if cv ≥ cp ∧ cv ≥ ck then "vata"
  else if cp > cv ∧ cp ≥ ck then "pitta"
  else "kapha"

/-! ## Backend: data model (`server.js`, `UserSchema`) -/

/-- The nested path `personal` of the schema. -/
structure Personal where
  name : Option String := none
  age : Option Int := none
  deriving DecidableEq, Repr

/-- The nested path `health` of the schema. -/
structure Health where
  height : Option Int := none
  weight : Option Int := none
  conditions : Option String := none
  deriving DecidableEq, Repr

/-- One element of the array `followups`. -/
structure Followup where
  text : String
  timestamp : Nat
  deriving DecidableEq, Repr

/-- A document of the `User` collection. `id` is the `_id` of the document,
`password` holds the bcrypt hash. -/
structure User where
  id : Nat
  email : String
  password : String
  personal : Personal
  health : Health
  analysisResult : Option String
  lastUpdated : Option Nat
  followups : List Followup
  deriving DecidableEq, Repr

/-- A document as `.select('-password')` returns it. -/
structure Profile where
  id : Nat
  email : String
  personal : Personal
  health : Health
  analysisResult : Option String
  lastUpdated : Option Nat
  followups : List Followup
  deriving DecidableEq, Repr

/-- The projection `.select('-password')`. -/
def User.selectMinusPassword (u : User) : Profile :=
  { id := u.id, email := u.email, personal := u.personal, health := u.health,
    analysisResult := u.analysisResult, lastUpdated := u.lastUpdated,
    followups := u.followups }

/-- The collection, in insertion order. -/
abbrev Store := List User

/-! ## Requests and responses -/

/-- A comparison operator of a MongoDB query, as a JSON object such as
`{"$gt": ""}` or `{"$ne": null}` spells it; the operand `none` is `null`. -/
inductive QueryOperator where
  | eq (operand : Option String)
  | ne (operand : Option String)
  | gt (operand : String)
  | gte (operand : String)
  | lt (operand : String)
  | lte (operand : String)
  deriving DecidableEq, Repr

/-- The JSON values `express.json()` can leave in `req.body.email` and
`req.body.password` that the model follows: absent, `null`, a string, or an
object holding one comparison operator. Numbers and booleans (which Mongoose
casts to strings), arrays and other objects are left out. -/
inductive JsonValue where
  | undefined
  | null
  | str (value : String)
  | operator (op : QueryOperator)
  deriving DecidableEq, Repr

/-- The parsed JSON body `req.body`; a field that is absent is `none`
(`undefined` for `email` and `password`). -/
structure Body where
  email : JsonValue := .undefined
  password : JsonValue := .undefined
  personal : Option Personal := none
  health : Option Health := none
  analysisResult : Option String := none
  text : Option String := none
  deriving DecidableEq, Repr

/-- A request with what the server reads while handling it: the
`authorization` header, the body, the clock (`new Date()`, `Date.now()`) and
the randomness bcrypt draws its salt from. -/
structure Req where
  authorization : Option String := none
  body : Body := {}
  now : Nat := 0
  salt : Nat := 0
  deriving DecidableEq, Repr

/-- What `res.json(...)` or `res.sendStatus(...)` sends. -/
inductive Payload where
  | statusText (text : String)
  | message (message : String)
  | login (message : String) (token : String) (userId : Nat)
  | user (user : Profile)
  | messageUser (message : String) (user : Profile)
  | followups (list : List Followup)
  | followup (entry : Followup)
  | empty
  deriving DecidableEq, Repr

/-- An HTTP response: status code and payload. -/
structure Response where
  status : Nat
  body : Payload
  deriving DecidableEq, Repr

/-! ## Libraries, taken as parameters -/

/-- The two functions of `bcryptjs` the server calls: `hash(password, 10)`,
which draws a salt, and `compare(password, hash)`. -/
structure Bcrypt where
  hash : String → Nat → String
  compare : String → String → Bool

/-- The payload of a token: what `jwt.sign` is given plus the `iat` and `exp`
it adds. -/
structure Claims where
  userId : Nat
  email : String
  iat : Nat
  exp : Option Nat
  deriving DecidableEq, Repr

/-- The signing scheme of `jsonwebtoken` under `JWT_SECRET`: `sign` encodes
and signs a payload, `decode` checks the signature of a token and returns its
payload. -/
structure Jwt where
  sign : Claims → String
  decode : String → Option Claims

/-- How `findByIdAndUpdate` treats an update key whose value is `undefined`.
It depends on the Mongoose release the server is installed with, which the
sources do not fix: from Mongoose 6 on the key is stripped from the update,
before that it is written as `null` and the sub-structure reads back empty. -/
inductive UndefinedKeys where
  | stripped
  | writtenAsNull
  deriving DecidableEq, Repr

/-- The libraries the server is linked with. -/
structure Libs where
  bcrypt : Bcrypt
  jwt : Jwt
  undefinedKeys : UndefinedKeys

/-- The option `expiresIn: '24h'`, in seconds. -/
def expiresIn : Nat := 24 * 60 * 60

/-- The call `jwt.sign({ userId, email }, JWT_SECRET, { expiresIn: '24h' })`
at clock reading `now` (milliseconds): `iat` is `Math.floor(Date.now() / 1000)`
and `exp` is `iat` plus the span. -/
def jwtSign (J : Jwt) (userId : Nat) (email : String) (now : Nat) : String :=
  let iat := now / 1000
  J.sign { userId := userId, email := email, iat := iat, exp := some (iat + expiresIn) }

/-- The call `jwt.verify(token, JWT_SECRET, callback)` at clock reading
`now` (milliseconds); `none` is the error case of the callback. An empty
token, a token whose signature does not check and a token whose `exp` the
clock `Math.floor(Date.now() / 1000)` has reached are errors. -/
def jwtVerify (J : Jwt) (now : Nat) (token : String) : Option Claims :=
  if token = "" then none
  else
    match J.decode token with
    | none => none
    | some payload =>
      let clockTimestamp := now / 1000
      match payload.exp with
      | some exp => if clockTimestamp ≥ exp then none else some payload
      | none => some payload

/-! ## The collection's operations -/

/-- The binary order of strings under the default collation: the first
differing character decides by its code point, a proper prefix comes first. -/
def stringLt : List Char → List Char → Bool
  | _, [] => false
  | [], _ :: _ => true
  | a :: as, b :: bs =>
    if a.toNat < b.toNat then true
    else if b.toNat < a.toNat then false
    else stringLt as bs

/-- Whether a stored string satisfies a comparison operator. -/
def QueryOperator.holds (op : QueryOperator) (stored : String) : Bool :=
  match op with
  | .eq operand => operand == some stored
  | .ne operand => operand != some stored
  | .gt operand => stringLt operand.toList stored.toList
  | .gte operand => !stringLt stored.toList operand.toList
  | .lt operand => stringLt stored.toList operand.toList
  | .lte operand => !stringLt operand.toList stored.toList

/-- Whether a document with the given email matches the filter `{ email }`:
a string matches by equality, an operator object by its operator, and
`undefined` or `null` match no document, every document having an email. -/
def matchesEmail (email : JsonValue) (stored : String) : Bool :=
  match email with
  | .str value => stored == value
  | .operator op => op.holds stored
  | .null => false
  | .undefined => false

/-- The query `User.findOne({ email })`: the first document that matches the
filter built from `req.body.email` as it came. -/
def findOne (s : Store) (email : JsonValue) : Option User :=
  s.find? (fun u => matchesEmail email u.email)

/-- The query `User.findById(id)`. -/
def findById (s : Store) (id : Nat) : Option User :=
  s.find? (fun u => u.id == id)

/-- The call `User.findByIdAndUpdate(id, update, { new: true })`: the first
document with the id is replaced by its update, which is returned. -/
def findByIdAndUpdate (id : Nat) (update : User → User) : Store → Store × Option User
  | [] => ([], none)
  | u :: us =>
    if u.id = id then (update u :: us, some (update u))
    else ((findByIdAndUpdate id update us).1.cons u, (findByIdAndUpdate id update us).2)

/-- The `_id` a new document gets: one that no stored document has. -/
def freshId (s : Store) : Nat :=
  (s.map (fun u => u.id)).foldr max 0 + 1

/-- The call `newUser.save()` under the unique index on `email`: `none` is
the duplicate-key error (code 11000). -/
def save (newUser : User) (s : Store) : Option Store :=
  if s.any (fun u => u.email == newUser.email) then none else some (s ++ [newUser])

/-- The value a nested path has after an update that names it with
`supplied`. -/
def setPath {α : Type} (m : UndefinedKeys) (empty : α) (supplied : Option α) (old : α) : α :=
  match supplied, m with
  | some v, _ => v
  | none, .stripped => old
  | none, .writtenAsNull => empty

/-! ## Authentication endpoints -/

/-- The test `!value` of JavaScript on a body field. -/
def falsy (value : JsonValue) : Bool :=
  match value with
  | .undefined => true
  | .null => true
  | .str s => s == ""
  | .operator _ => false

/-- The handler of `POST /api/auth/register`. After the guard
`!email || !password`, `bcrypt.hash` rejects a password that is not a string
and the document does not validate with an email that does not cast to a
string; either ends in the `catch` with 500. -/
def register (L : Libs) (req : Req) (s : Store) : Store × Response :=
  if falsy req.body.email || falsy req.body.password then
    (s, ⟨400, .message "Email and password are required."⟩)
  else
    match req.body.email, req.body.password with
    | .str email, .str password =>
      let hashedPassword := L.bcrypt.hash password req.salt
      let newUser : User :=
        { id := freshId s, email := email, password := hashedPassword,
          personal := {}, health := {}, followups := [], analysisResult := none,
          lastUpdated := none }
      match save newUser s with
      | some s' => (s', ⟨201, .message "User registered successfully!"⟩)
      | none => (s, ⟨400, .message "Email already exists."⟩)
    | _, _ => (s, ⟨500, .message "Server error"⟩)

/-- The handler of `POST /api/auth/login`. `bcrypt.compare` rejects a
password that is not a string, which the `catch` answers with 500. -/
def login (L : Libs) (req : Req) (s : Store) : Store × Response :=
  match findOne s req.body.email with
  | none => (s, ⟨400, .message "Invalid email or password."⟩)
  | some user =>
    match req.body.password with
    | .str password =>
      let isMatch := L.bcrypt.compare password user.password
      if !isMatch then (s, ⟨400, .message "Invalid email or password."⟩)
      else
        let token := jwtSign L.jwt user.id user.email req.now
        (s, ⟨200, .login "Login successful!" token user.id⟩)
    | _ => (s, ⟨500, .message "Server error"⟩)

/-! ## Auth middleware -/

/-- The method `String.prototype.split` with a one-character separator, on
the characters of the string. -/
def split (sep : Char) : List Char → List (List Char)
  | [] => [[]]
  | c :: cs =>
    if c = sep then [] :: split sep cs
    else
      match split sep cs with
      | seg :: rest => (c :: seg) :: rest
      | [] => [[c]]

/-- The expression `authHeader && authHeader.split(' ')[1]`; `none` is
`undefined`. An empty header is falsy and is itself the value. -/
def tokenOf (authHeader : Option String) : Option String :=
  match authHeader with
  | none => none
  | some h =>
    if h = "" then some ""
    else ((split ' ' h.toList).get? 1).map String.mk

/-- The middleware `authMiddleware`; `next` is the protected handler, which
receives the verified payload as `req.user`. -/
def authMiddleware (J : Jwt) (req : Req) (next : Claims → Store → Store × Response)
    (s : Store) : Store × Response :=
  match tokenOf req.authorization with
  | none => (s, ⟨401, .statusText "Unauthorized"⟩)
  | some token =>
    match jwtVerify J req.now token with
    | none => (s, ⟨403, .statusText "Forbidden"⟩)
    | some user => next user s

/-! ## Data endpoints (the handlers behind `authMiddleware`) -/

/-- The handler of `GET /api/user/profile`. -/
def getProfile (user : Claims) (s : Store) : Store × Response :=
  match findById s user.userId with
  | none => (s, ⟨404, .message "User not found."⟩)
  | some u => (s, ⟨200, .user u.selectMinusPassword⟩)

/-- The handler of `POST /api/user/profile`: the update document is
`{ personal, health, lastUpdated: new Date() }`. -/
def updateProfile (L : Libs) (req : Req) (user : Claims) (s : Store) : Store × Response :=
  let personal := req.body.personal
  let health := req.body.health
  let r := findByIdAndUpdate user.userId
    (fun u => { u with
      personal := setPath L.undefinedKeys {} personal u.personal,
      health := setPath L.undefinedKeys {} health u.health,
      lastUpdated := some req.now }) s
  match r.2 with
  | none => (r.1, ⟨404, .message "User not found."⟩)
  | some u => (r.1, ⟨200, .messageUser "Profile updated successfully!" u.selectMinusPassword⟩)

/-- The handler of `POST /api/user/analysis`. -/
def saveAnalysis (req : Req) (user : Claims) (s : Store) : Store × Response :=
  let analysisResult := req.body.analysisResult
  if !([some "vata", some "pitta", some "kapha"].contains analysisResult) then
    (s, ⟨400, .message "Invalid analysis result."⟩)
  else
    let r := findByIdAndUpdate user.userId
      (fun u => { u with analysisResult := analysisResult }) s
    match r.2 with
    | none => (r.1, ⟨404, .message "User not found."⟩)
    | some u => (r.1, ⟨200, .messageUser "Analysis saved!" u.selectMinusPassword⟩)

/-- The comparator `(a, b) => b.timestamp - a.timestamp` read as an order:
`a` may stand before `b`. -/
def newestFirst (a b : Followup) : Prop := b.timestamp ≤ a.timestamp

instance : DecidableRel newestFirst := fun a b => Nat.decLe b.timestamp a.timestamp

instance : IsTotal Followup newestFirst :=
  ⟨fun a b => Nat.le_total b.timestamp a.timestamp⟩

instance : IsTrans Followup newestFirst :=
  ⟨fun _ _ _ hab hbc => Nat.le_trans hbc hab⟩

/-- The handler of `GET /api/user/followups`: the array of the document read
is sorted (`Array.prototype.sort` is stable) and sent; nothing is saved. -/
def getFollowups (user : Claims) (s : Store) : Store × Response :=
  match findById s user.userId with
  | none => (s, ⟨404, .message "User not found."⟩)
  | some u =>
    let sortedFollowups := u.followups.insertionSort newestFirst
    (s, ⟨200, .followups sortedFollowups⟩)

/-- The handler of `POST /api/user/followups`. The guard `!text` holds when
the text is absent or the empty string. -/
def addFollowup (req : Req) (user : Claims) (s : Store) : Store × Response :=
  match req.body.text with
  | none => (s, ⟨400, .message "Feedback text is required."⟩)
  | some text =>
    if text = "" then (s, ⟨400, .message "Feedback text is required."⟩)
    else
      let newFollowup : Followup := { text := text, timestamp := req.now }
      let r := findByIdAndUpdate user.userId
        (fun u => { u with followups := u.followups ++ [newFollowup] }) s
      match r.2 with
      | none => (r.1, ⟨404, .message "User not found."⟩)
      | some u =>
        match u.followups.getLast? with
        | some entry => (r.1, ⟨201, .followup entry⟩)
        | none => (r.1, ⟨201, .empty⟩)

/-! ## The service as a transition system -/

/-- The routes of the server. -/
inductive Route where
  | register
  | login
  | getProfile
  | updateProfile
  | saveAnalysis
  | getFollowups
  | addFollowup
  deriving DecidableEq, Repr

/-- One request handled to completion: the store after it and the response. -/
def handle (L : Libs) (route : Route) (req : Req) (s : Store) : Store × Response :=
  match route with
  | .register => register L req s
  | .login => login L req s
  | .getProfile => authMiddleware L.jwt req getProfile s
  | .updateProfile => authMiddleware L.jwt req (updateProfile L req) s
  | .saveAnalysis => authMiddleware L.jwt req (saveAnalysis req) s
  | .getFollowups => authMiddleware L.jwt req getFollowups s
  | .addFollowup => authMiddleware L.jwt req (addFollowup req) s

/-- The stores the server can be in: the empty collection and what any
request makes of a reachable one. -/
inductive Reachable (L : Libs) : Store → Prop where
  | empty : Reachable L []
  | step (route : Route) (req : Req) {s : Store} :
      Reachable L s → Reachable L (handle L route req s).1

/-! ## Frontend: what the pages send (`App.js`) -/

/-- An entry of `options` in `quizQuestions`. -/
structure QuizOption where
  text : String
  value : String
  deriving DecidableEq, Repr

/-- An entry of `quizQuestions`. -/
structure QuizQuestion where
  question : String
  options : List QuizOption
  deriving DecidableEq, Repr

/-- The table `quizQuestions`. -/
def quizQuestions : List QuizQuestion :=
  [ { question := "My body frame is typically...",
      options :=
        [ ⟨"Thin, light, and tall or short", "vata"⟩,
          ⟨"Medium build and muscular", "pitta"⟩,
          ⟨"Large, heavy, and well-built", "kapha"⟩ ] },
    { question := "My skin is generally...",
      options :=
        [ ⟨"Dry, rough, and thin", "vata"⟩,
          ⟨"Oily, warm, and sensitive (prone to rashes/acne)", "pitta"⟩,
          ⟨"Thick, oily, cool, and smooth", "kapha"⟩ ] },
    { question := "My appetite is...",
      options :=
        [ ⟨"Irregular, I get variable hunger", "vata"⟩,
          ⟨"Strong, I get irritable if I miss a meal", "pitta"⟩,
          ⟨"Steady, I can skip meals easily", "kapha"⟩ ] },
    { question := "My digestion tends to be...",
      options :=
        [ ⟨"Variable, gassy, and prone to constipation", "vata"⟩,
          ⟨"Fast, strong, and prone to acidity or loose stools", "pitta"⟩,
          ⟨"Slow, heavy, and sluggish", "kapha"⟩ ] },
    { question := "My temperament is...",
      options :=
        [ ⟨"Enthusiastic, lively, and moody", "vata"⟩,
          ⟨"Intelligent, focused, and irritable", "pitta"⟩,
          ⟨"Calm, steady, and sometimes possessive", "kapha"⟩ ] } ]

/-- The values `handleAnswer(qIndex, opt.value)` can put into `answers`: the
`value` of an option of a question of the quiz. -/
def optionValues : List String :=
  quizQuestions.flatMap (fun q => q.options.map (fun o => o.value))

/-- The body `PrakritiAnalysis.handleSubmit` posts to `/user/analysis`:
`JSON.stringify({ analysisResult })` with `analysisResult = calculateDosha()`. -/
def PrakritiAnalysis.handleSubmit (answers : List String) : Body :=
  { analysisResult := some (calculateDosha answers) }

/-- The characters `String.prototype.trim` removes: white space and line
terminators, by code point. -/
def isWhiteSpace (c : Char) : Bool :=
  [9, 10, 11, 12, 13, 32, 160, 5760, 8232, 8233, 8239, 8287, 12288, 65279].contains c.toNat
    || (8192 ≤ c.toNat && c.toNat ≤ 8202)

/-- The method `String.prototype.trim`, on the characters of the string. -/
def trim (cs : List Char) : List Char :=
  ((cs.dropWhile isWhiteSpace).reverse.dropWhile isWhiteSpace).reverse

/-- The function `Followups.handleSubmit`: the body it posts to
`/user/followups`, or `none` when the guard
`feedback.trim() === '' || !token` makes it return without a request. -/
def Followups.handleSubmit (feedback : String) (token : Option String) : Option Body :=
  if trim feedback.toList = [] ∨ token = none ∨ token = some "" then none
  else some { text := some feedback }

/-! ## Notions the properties are stated with -/

/-- The payload `authMiddleware` passes on for a request: the token it
extracts from the header, verified at the time of the request. -/
def credential (J : Jwt) (req : Req) : Option Claims :=
  (tokenOf req.authorization).bind (jwtVerify J req.now)

/-- The invariant of the unique index on `email`: no two documents share an
email. -/
def UniqueEmails (s : Store) : Prop := (s.map (fun u => u.email)).Nodup

instance (s : Store) : Decidable (UniqueEmails s) := by
  unfold UniqueEmails; infer_instance

/-- A sample of the libraries, used to instantiate the theorems: the hash of
a password is the password behind a mark, one token string carries the payload
of account 1. -/
def sampleLibs (m : UndefinedKeys) : Libs :=
  { bcrypt := { hash := fun p _ => "#" ++ p, compare := fun p h => h == "#" ++ p },
    jwt := { sign := fun _ => "t1",
             decode := fun t => if t = "t1" then some ⟨1, "a@x.org", 100, some 86500⟩ else none },
    undefinedKeys := m }

/-- The count so far plus the number of leading copies of a character, and
what follows them. -/
def takeUnaryFrom (c : Char) : Nat → List Char → Nat × List Char
  | n, [] => (n, [])
  | n, x :: xs => if x = c then takeUnaryFrom c (n + 1) xs else (n, x :: xs)

/-- The number of leading copies of a character and what follows them. -/
def takeUnary (c : Char) (cs : List Char) : Nat × List Char :=
  takeUnaryFrom c 0 cs

/-- A sample token format in which every payload can be read back: the
numbers in unary, the fields separated by dots, the email last. -/
def encodeClaims (payload : Claims) : List Char :=
  List.replicate payload.userId 'u' ++ '.' ::
    (List.replicate payload.iat 'i' ++ '.' ::
      (match payload.exp with
        | none => 'n' :: '.' :: payload.email.toList
        | some exp => 's' :: (List.replicate exp 'e' ++ '.' :: payload.email.toList)))

/-- The reader of the sample token format. -/
def decodeClaims (token : List Char) : Option Claims :=
  match (takeUnary 'u' token).2 with
  | '.' :: afterId =>
    match (takeUnary 'i' afterId).2 with
    | '.' :: 'n' :: '.' :: email =>
      some ⟨(takeUnary 'u' token).1, String.mk email, (takeUnary 'i' afterId).1, none⟩
    | '.' :: 's' :: afterMark =>
      match (takeUnary 'e' afterMark).2 with
      | '.' :: email =>
        some ⟨(takeUnary 'u' token).1, String.mk email, (takeUnary 'i' afterId).1,
          some (takeUnary 'e' afterMark).1⟩
      | _ => none
    | _ => none
  | _ => none

/-- A sample of the libraries whose signing scheme decodes every payload it
signed, used to instantiate the theorems on minted tokens. -/
def roundtripLibs : Libs :=
  { bcrypt := { hash := fun p _ => "#" ++ p, compare := fun p h => h == "#" ++ p },
    jwt := { sign := fun payload => String.mk (encodeClaims payload),
             decode := fun token => decodeClaims token.toList },
    undefinedKeys := .stripped }

/-! ### Lemmas on the tally -/

theorem foldl_incr (answers : List String) (c : Counts) :
    answers.foldl Counts.incr c =
      ⟨c.vata + answers.count "vata", c.pitta + answers.count "pitta",
        c.kapha + answers.count "kapha"⟩ := by
  induction answers generalizing c with
  | nil => simp
  | cons a as ih =>
    rw [List.foldl_cons, ih]
    unfold Counts.incr
    by_cases hv : a = "vata"
    · subst hv; simp [List.count_cons]; omega
    · by_cases hp : a = "pitta"
      · subst hp; simp [List.count_cons]; omega
      · by_cases hk : a = "kapha"
        · subst hk; simp [List.count_cons]; omega
        · have h1 : ("vata" == a) = false := by
            simpa using fun h => hv h.symm
          have h2 : ("pitta" == a) = false := by
            simpa using fun h => hp h.symm
          have h3 : ("kapha" == a) = false := by
            simpa using fun h => hk h.symm
          simp [hv, hp, hk, List.count_cons, h1, h2, h3]

theorem calculateDosha_eq (answers : List String) :
    calculateDosha answers =
      referenceTally (answers.count "vata") (answers.count "pitta")
        (answers.count "kapha") := by
  unfold calculateDosha referenceTally
  rw [foldl_incr]
  generalize answers.count "vata" = cv
  generalize answers.count "pitta" = cp
  generalize answers.count "kapha" = ck
  simp only [Nat.zero_add]
  by_cases h1 : cp > cv
  · rw [if_pos (show cp > Counts.get ⟨cv, cp, ck⟩ "vata" from h1)]
    have e : Counts.get ⟨cv, cp, ck⟩ "pitta" = cp := rfl
    rw [e, if_neg (show ¬ (cv ≥ cp ∧ cv ≥ ck) by omega)]
    by_cases h2 : ck > cp
    · rw [if_pos h2, if_neg (show ¬ (cp > cv ∧ cp ≥ ck) by omega)]
    · rw [if_neg h2, if_pos (show cp > cv ∧ cp ≥ ck by omega)]
  · rw [if_neg (show ¬ cp > Counts.get ⟨cv, cp, ck⟩ "vata" from h1)]
    have e : Counts.get ⟨cv, cp, ck⟩ "vata" = cv := rfl
    rw [e]
    by_cases h2 : ck > cv
    · rw [if_pos h2, if_neg (show ¬ (cv ≥ cp ∧ cv ≥ ck) by omega),
        if_neg (show ¬ (cp > cv ∧ cp ≥ ck) by omega)]
    · rw [if_neg h2, if_pos (show cv ≥ cp ∧ cv ≥ ck by omega)]

theorem count_labels (answers : List String)
    (hlabel : ∀ a ∈ answers, a = "vata" ∨ a = "pitta" ∨ a = "kapha") :
    answers.count "vata" + answers.count "pitta" + answers.count "kapha" =
      answers.length := by
  induction answers with
  | nil => rfl
  | cons a as ih =>
    have ih1 := ih (fun b hb => hlabel b (List.mem_cons_of_mem a hb))
    rcases hlabel a (List.mem_cons_self a as) with h | h | h <;>
      subst h <;> simp [List.count_cons] <;> omega

/-! ### Lemmas on the middleware and the collection -/

theorem authMiddleware_of_credential {J : Jwt} {req : Req} {c : Claims}
    (h : credential J req = some c) (next : Claims → Store → Store × Response)
    (s : Store) : authMiddleware J req next s = next c s := by
  unfold credential at h
  unfold authMiddleware
  cases ht : tokenOf req.authorization with
  | none => simp [ht] at h
  | some tok =>
    simp only [ht, Option.some_bind] at h
    simp [h]

theorem findOne_eq_some {s : Store} {email : JsonValue} {u : User}
    (h : findOne s email = some u) : u ∈ s ∧ matchesEmail email u.email = true := by
  unfold findOne at h
  have hm := List.find?_some h
  exact ⟨List.mem_of_find?_eq_some h, hm⟩

theorem findOne_str_eq_some {s : Store} {email : String} {u : User}
    (h : findOne s (.str email) = some u) : u ∈ s ∧ u.email = email := by
  obtain ⟨hu, hm⟩ := findOne_eq_some h
  exact ⟨hu, eq_of_beq hm⟩

theorem findOne_eq_none {s : Store} {email : String}
    (h : findOne s (.str email) = none) : ∀ u ∈ s, u.email ≠ email := by
  unfold findOne at h
  intro u hu he
  have := List.find?_eq_none.mp h u hu
  simp [matchesEmail, he] at this

theorem findOne_of_mem {s : Store} {u : User} (huniq : UniqueEmails s) (hu : u ∈ s) :
    findOne s (.str u.email) = some u := by
  cases h : findOne s (.str u.email) with
  | none => exact absurd rfl (findOne_eq_none h u hu)
  | some v =>
    obtain ⟨hv, he⟩ := findOne_str_eq_some h
    have := List.inj_on_of_nodup_map huniq hv hu he
    rw [this]

theorem findOne_none_of_not_mem {s : Store} {email : String}
    (h : ∀ u ∈ s, u.email ≠ email) : findOne s (.str email) = none := by
  cases hf : findOne s (.str email) with
  | none => rfl
  | some v => exact absurd (findOne_str_eq_some hf).2 (h v (findOne_str_eq_some hf).1)

theorem findOne_absent (s : Store) :
    findOne s .undefined = none ∧ findOne s .null = none := by
  unfold findOne
  constructor <;> exact List.find?_eq_none.mpr (fun u _ => by simp [matchesEmail])

theorem save_duplicate {newUser : User} {s : Store}
    (h : ∃ u ∈ s, u.email = newUser.email) : save newUser s = none := by
  unfold save
  rw [if_pos]
  rw [List.any_eq_true]
  obtain ⟨u, hu, he⟩ := h
  exact ⟨u, hu, by simp [he]⟩

theorem save_new {newUser : User} {s : Store}
    (h : ∀ u ∈ s, u.email ≠ newUser.email) : save newUser s = some (s ++ [newUser]) := by
  unfold save
  rw [if_neg]
  rw [List.any_eq_true]
  rintro ⟨u, hu, he⟩
  exact h u hu (eq_of_beq he)

theorem falsy_str {value : String} : falsy (.str value) = true ↔ value = "" := by
  unfold falsy
  exact beq_iff_eq

theorem register_of_fields (L : Libs) (req : Req) (s : Store) (email password : String)
    (he : req.body.email = .str email) (hp : req.body.password = .str password)
    (hemail : email ≠ "") (hpassword : password ≠ "") :
    ((∃ u ∈ s, u.email = email) →
      register L req s = (s, ⟨400, .message "Email already exists."⟩)) ∧
    ((∀ u ∈ s, u.email ≠ email) →
      register L req s =
        (s ++ [⟨freshId s, email, L.bcrypt.hash password req.salt, {}, {}, none, none, []⟩],
          ⟨201, .message "User registered successfully!"⟩)) := by
  have h1 : falsy (.str email) = false := by
    rw [Bool.eq_false_iff]; exact fun h => hemail (falsy_str.mp h)
  have h2 : falsy (.str password) = false := by
    rw [Bool.eq_false_iff]; exact fun h => hpassword (falsy_str.mp h)
  constructor
  · intro h
    unfold register
    rw [he, hp]
    simp only [h1, h2, Bool.or_self, Bool.false_eq_true, if_false]
    rw [save_duplicate h]
  · intro h
    unfold register
    rw [he, hp]
    simp only [h1, h2, Bool.or_self, Bool.false_eq_true, if_false]
    rw [save_new h]

theorem register_falsy_field (L : Libs) (req : Req) (s : Store)
    (h : falsy req.body.email = true ∨ falsy req.body.password = true) :
    register L req s = (s, ⟨400, .message "Email and password are required."⟩) := by
  unfold register
  rw [if_pos]
  rcases h with h | h <;> simp [h]

theorem register_missing_field (L : Libs) (req : Req) (s : Store)
    (h : req.body.email = .undefined ∨ req.body.email = .str "" ∨
      req.body.password = .undefined ∨ req.body.password = .str "") :
    register L req s = (s, ⟨400, .message "Email and password are required."⟩) := by
  apply register_falsy_field
  rcases h with h | h | h | h
  · left; rw [h]; rfl
  · left; rw [h]; rfl
  · right; rw [h]; rfl
  · right; rw [h]; rfl

theorem register_cases (L : Libs) (req : Req) (s : Store) :
    register L req s = (s, ⟨400, .message "Email and password are required."⟩) ∨
    register L req s = (s, ⟨400, .message "Email already exists."⟩) ∨
    register L req s = (s, ⟨500, .message "Server error"⟩) ∨
    ∃ email password, req.body.email = .str email ∧ req.body.password = .str password ∧
      email ≠ "" ∧ password ≠ "" ∧ (∀ u ∈ s, u.email ≠ email) ∧
      register L req s =
        (s ++ [⟨freshId s, email, L.bcrypt.hash password req.salt, {}, {}, none, none, []⟩],
          ⟨201, .message "User registered successfully!"⟩) := by
  by_cases hf : falsy req.body.email = true ∨ falsy req.body.password = true
  · left; exact register_falsy_field L req s hf
  · have hcond : (falsy req.body.email || falsy req.body.password) = false := by
      rw [Bool.eq_false_iff]
      intro h
      rw [Bool.or_eq_true] at h
      exact hf h
    have hserver : (∀ email password, ¬ (req.body.email = .str email ∧
        req.body.password = .str password)) →
        register L req s = (s, ⟨500, .message "Server error"⟩) := by
      intro hns
      unfold register
      rw [hcond]
      simp only [Bool.false_eq_true, if_false]
      split
      · rename_i email password he hp
        exact absurd ⟨he, hp⟩ (hns email password)
      · rfl
    cases he : req.body.email with
    | str email =>
      cases hp : req.body.password with
      | str password =>
        have hemail : email ≠ "" := fun h => hf (Or.inl (by rw [he, h]; rfl))
        have hpassword : password ≠ "" := fun h => hf (Or.inr (by rw [hp, h]; rfl))
        by_cases hdup : ∃ u ∈ s, u.email = email
        · right; left
          exact (register_of_fields L req s email password he hp hemail hpassword).1 hdup
        · right; right; right
          have hnew : ∀ u ∈ s, u.email ≠ email := fun u hu hue => hdup ⟨u, hu, hue⟩
          exact ⟨email, password, rfl, rfl, hemail, hpassword, hnew,
            (register_of_fields L req s email password he hp hemail hpassword).2 hnew⟩
      | undefined => right; right; left; exact hserver (fun _ _ h => by rw [hp] at h; simp at h)
      | null => right; right; left; exact hserver (fun _ _ h => by rw [hp] at h; simp at h)
      | operator op =>
        right; right; left; exact hserver (fun _ _ h => by rw [hp] at h; simp at h)
    | undefined => right; right; left; exact hserver (fun _ _ h => by rw [he] at h; simp at h)
    | null => right; right; left; exact hserver (fun _ _ h => by rw [he] at h; simp at h)
    | operator op =>
      right; right; left; exact hserver (fun _ _ h => by rw [he] at h; simp at h)

theorem register_store (L : Libs) (req : Req) (s : Store) :
    (register L req s).1 = s ∨
    ∃ email password, req.body.email = .str email ∧ req.body.password = .str password ∧
      email ≠ "" ∧ password ≠ "" ∧ (∀ u ∈ s, u.email ≠ email) ∧
      register L req s =
        (s ++ [⟨freshId s, email, L.bcrypt.hash password req.salt, {}, {}, none, none, []⟩],
          ⟨201, .message "User registered successfully!"⟩) := by
  rcases register_cases L req s with h | h | h | h
  · left; rw [h]
  · left; rw [h]
  · left; rw [h]
  · right; exact h

theorem findByIdAndUpdate_map_email (id : Nat) (update : User → User)
    (hupdate : ∀ u, (update u).email = u.email) (s : Store) :
    (findByIdAndUpdate id update s).1.map (fun u => u.email) = s.map (fun u => u.email) := by
  induction s with
  | nil => rfl
  | cons u us ih =>
    unfold findByIdAndUpdate
    by_cases h : u.id = id
    · simp [h, hupdate]
    · simp [h, ih]

theorem authMiddleware_store (P : Store → Prop) (J : Jwt) (req : Req)
    (next : Claims → Store → Store × Response) (s : Store)
    (hs : P s) (hnext : ∀ c, P (next c s).1) : P (authMiddleware J req next s).1 := by
  unfold authMiddleware
  cases ht : tokenOf req.authorization with
  | none => exact hs
  | some token =>
    cases hv : jwtVerify J req.now token with
    | none => simp only [hv]; exact hs
    | some c => simp only [hv]; exact hnext c

theorem register_uniqueEmails (L : Libs) (req : Req) (s : Store) (h : UniqueEmails s) :
    UniqueEmails (register L req s).1 := by
  rcases register_store L req s with hs | ⟨email, password, _, _, _, _, hnew, hs⟩
  · rw [hs]; exact h
  · rw [hs]
    unfold UniqueEmails at h ⊢
    rw [List.map_append, List.nodup_append]
    refine ⟨h, List.nodup_singleton _, ?_⟩
    intro a ha hb
    rw [List.map_singleton, List.mem_singleton] at hb
    obtain ⟨v, hv, hva⟩ := List.mem_map.mp ha
    exact hnew v hv (hva.trans hb)

theorem login_store (L : Libs) (req : Req) (s : Store) : (login L req s).1 = s := by
  unfold login
  cases findOne s req.body.email with
  | none => rfl
  | some u =>
    cases req.body.password with
    | str password =>
      simp only
      split <;> rfl
    | undefined => rfl
    | null => rfl
    | operator op => rfl

theorem login_found (L : Libs) (req : Req) (s : Store) (u : User) (password : String)
    (hfound : findOne s req.body.email = some u)
    (hpassword : req.body.password = .str password) :
    login L req s =
      if L.bcrypt.compare password u.password = true then
        (s, ⟨200, .login "Login successful!" (jwtSign L.jwt u.id u.email req.now) u.id⟩)
      else (s, ⟨400, .message "Invalid email or password."⟩) := by
  unfold login
  rw [hfound, hpassword]
  simp only
  cases hm : L.bcrypt.compare password u.password <;> simp

theorem login_not_found (L : Libs) (req : Req) (s : Store)
    (hfound : findOne s req.body.email = none) :
    login L req s = (s, ⟨400, .message "Invalid email or password."⟩) := by
  unfold login
  rw [hfound]

theorem login_password_not_string (L : Libs) (req : Req) (s : Store) (u : User)
    (hfound : findOne s req.body.email = some u)
    (hpassword : ∀ password, req.body.password ≠ .str password) :
    login L req s = (s, ⟨500, .message "Server error"⟩) := by
  unfold login
  rw [hfound]
  cases hp : req.body.password with
  | str password => exact absurd hp (hpassword password)
  | undefined => rfl
  | null => rfl
  | operator op => rfl

theorem updateProfile_map_email (L : Libs) (req : Req) (c : Claims) (s : Store) :
    (updateProfile L req c s).1.map (fun u => u.email) = s.map (fun u => u.email) := by
  unfold updateProfile
  simp only
  split <;> exact findByIdAndUpdate_map_email _ _ (by intro u; rfl) s

theorem saveAnalysis_map_email (req : Req) (c : Claims) (s : Store) :
    (saveAnalysis req c s).1.map (fun u => u.email) = s.map (fun u => u.email) := by
  unfold saveAnalysis
  simp only
  split
  · rfl
  · split <;> exact findByIdAndUpdate_map_email _ _ (by intro u; rfl) s

theorem addFollowup_map_email (req : Req) (c : Claims) (s : Store) :
    (addFollowup req c s).1.map (fun u => u.email) = s.map (fun u => u.email) := by
  unfold addFollowup
  split
  · rfl
  · split
    · rfl
    · simp only
      split
      · exact findByIdAndUpdate_map_email _ _ (by intro u; rfl) s
      · split <;> exact findByIdAndUpdate_map_email _ _ (by intro u; rfl) s

theorem getProfile_store (c : Claims) (s : Store) : (getProfile c s).1 = s := by
  unfold getProfile
  split <;> rfl

theorem getFollowups_store (c : Claims) (s : Store) : (getFollowups c s).1 = s := by
  unfold getFollowups
  split <;> rfl

theorem handle_uniqueEmails (L : Libs) (route : Route) (req : Req) (s : Store)
    (h : UniqueEmails s) : UniqueEmails (handle L route req s).1 := by
  cases route with
  | register => exact register_uniqueEmails L req s h
  | login => show UniqueEmails (login L req s).1; rw [login_store]; exact h
  | getProfile =>
    exact authMiddleware_store UniqueEmails _ _ _ _ h (fun c => by rw [getProfile_store]; exact h)
  | updateProfile =>
    refine authMiddleware_store UniqueEmails _ _ _ _ h (fun c => ?_)
    unfold UniqueEmails; rw [updateProfile_map_email]; exact h
  | saveAnalysis =>
    refine authMiddleware_store UniqueEmails _ _ _ _ h (fun c => ?_)
    unfold UniqueEmails; rw [saveAnalysis_map_email]; exact h
  | getFollowups =>
    exact authMiddleware_store UniqueEmails _ _ _ _ h
      (fun c => by rw [getFollowups_store]; exact h)
  | addFollowup =>
    refine authMiddleware_store UniqueEmails _ _ _ _ h (fun c => ?_)
    unfold UniqueEmails; rw [addFollowup_map_email]; exact h

theorem reachable_uniqueEmails (L : Libs) {s : Store} (h : Reachable L s) :
    UniqueEmails s := by
  induction h with
  | empty => exact List.nodup_nil
  | step route req _ ih => exact handle_uniqueEmails L route req _ ih

theorem findByIdAndUpdate_none (id : Nat) (update : User → User) {s : Store}
    (h : findById s id = none) : findByIdAndUpdate id update s = (s, none) := by
  induction s with
  | nil => rfl
  | cons v vs ih =>
    unfold findById at h ih
    rw [List.find?_cons] at h
    by_cases hv : v.id = id
    · simp [hv] at h
    · have hb : (v.id == id) = false := by simpa using hv
      rw [hb] at h
      unfold findByIdAndUpdate
      rw [if_neg hv, ih h]

theorem findByIdAndUpdate_some (id : Nat) (update : User → User)
    (hid : ∀ v, (update v).id = v.id) {s : Store} {u : User}
    (h : findById s id = some u) :
    (findByIdAndUpdate id update s).2 = some (update u) ∧
    findById (findByIdAndUpdate id update s).1 id = some (update u) := by
  induction s with
  | nil => simp [findById] at h
  | cons v vs ih =>
    unfold findById at h ih ⊢
    rw [List.find?_cons] at h
    by_cases hv : v.id = id
    · have hb : (v.id == id) = true := by simpa using hv
      rw [hb] at h
      have hvu : v = u := Option.some.inj h
      subst hvu
      unfold findByIdAndUpdate
      rw [if_pos hv]
      refine ⟨rfl, ?_⟩
      rw [List.find?_cons]
      have hb' : ((update v).id == id) = true := by rw [hid]; exact hb
      rw [hb']
    · have hb : (v.id == id) = false := by simpa using hv
      rw [hb] at h
      unfold findByIdAndUpdate
      rw [if_neg hv]
      refine ⟨(ih h).1, ?_⟩
      show List.find? _ (v :: (findByIdAndUpdate id update vs).1) = _
      rw [List.find?_cons, hb]
      exact (ih h).2

theorem updateProfile_found (L : Libs) (req : Req) (c : Claims) {s : Store} {u : User}
    (hu : findById s c.userId = some u) :
    (updateProfile L req c s).2 =
      ⟨200, .messageUser "Profile updated successfully!"
        ({ u with
            personal := setPath L.undefinedKeys {} req.body.personal u.personal,
            health := setPath L.undefinedKeys {} req.body.health u.health,
            lastUpdated := some req.now } : User).selectMinusPassword⟩ ∧
    findById (updateProfile L req c s).1 c.userId =
      some { u with
        personal := setPath L.undefinedKeys {} req.body.personal u.personal,
        health := setPath L.undefinedKeys {} req.body.health u.health,
        lastUpdated := some req.now } := by
  have h := findByIdAndUpdate_some c.userId
    (fun u => { u with
      personal := setPath L.undefinedKeys {} req.body.personal u.personal,
      health := setPath L.undefinedKeys {} req.body.health u.health,
      lastUpdated := some req.now }) (fun _ => rfl) hu
  unfold updateProfile
  simp only [h.1]
  exact ⟨trivial, h.2⟩

theorem addFollowup_found (req : Req) (c : Claims) {s : Store} {u : User} {text : String}
    (ht : req.body.text = some text) (hne : text ≠ "")
    (hu : findById s c.userId = some u) :
    (addFollowup req c s).2 = ⟨201, .followup ⟨text, req.now⟩⟩ ∧
    findById (addFollowup req c s).1 c.userId =
      some { u with followups := u.followups ++ [⟨text, req.now⟩] } := by
  have h := findByIdAndUpdate_some c.userId
    (fun u => { u with followups := u.followups ++ [⟨text, req.now⟩] }) (fun _ => rfl) hu
  unfold addFollowup
  rw [ht]
  simp only [if_neg hne, h.1, List.getLast?_append, List.getLast?_singleton]
  exact ⟨rfl, h.2⟩

theorem getFollowups_found (c : Claims) {s : Store} {u : User}
    (hu : findById s c.userId = some u) :
    getFollowups c s = (s, ⟨200, .followups (u.followups.insertionSort newestFirst)⟩) := by
  unfold getFollowups
  rw [hu]

theorem findByIdAndUpdate_snd (id : Nat) (update : User → User) (s : Store) :
    (findByIdAndUpdate id update s).2 = (findById s id).map update := by
  induction s with
  | nil => rfl
  | cons v vs ih =>
    unfold findByIdAndUpdate findById
    rw [List.find?_cons]
    by_cases hv : v.id = id
    · have hb : (v.id == id) = true := by simpa using hv
      rw [if_pos hv, hb]
      rfl
    · have hb : (v.id == id) = false := by simpa using hv
      rw [if_neg hv, hb]
      exact ih

theorem findById_findByIdAndUpdate (id : Nat) (update : User → User)
    (hid : ∀ v, (update v).id = v.id) (id' : Nat) (s : Store) :
    findById (findByIdAndUpdate id update s).1 id' =
      if id' = id then (findById s id').map update else findById s id' := by
  induction s with
  | nil => unfold findByIdAndUpdate findById; simp
  | cons v vs ih =>
    unfold findById at ih ⊢
    unfold findByIdAndUpdate
    by_cases hv : v.id = id
    · rw [if_pos hv, List.find?_cons, List.find?_cons, hid]
      by_cases hv' : v.id = id'
      · have hb : (v.id == id') = true := by simpa using hv'
        rw [hb, if_pos (hv'.symm.trans hv)]
        rfl
      · have hb : (v.id == id') = false := by simpa using hv'
        rw [hb]
        have hne : ¬ id' = id := fun h => hv' (hv.trans h.symm)
        rw [if_neg hne]
    · rw [if_neg hv]
      show List.find? _ (v :: (findByIdAndUpdate id update vs).1) = _
      rw [List.find?_cons, List.find?_cons]
      by_cases hv' : v.id = id'
      · have hb : (v.id == id') = true := by simpa using hv'
        rw [hb]
        have hne : ¬ id' = id := fun h => hv (hv'.trans h)
        rw [if_neg hne]
      · have hb : (v.id == id') = false := by simpa using hv'
        rw [hb]
        exact ih

theorem findByIdAndUpdate_filter (id : Nat) (update : User → User)
    (hid : ∀ v, (update v).id = v.id) (s : Store) :
    (findByIdAndUpdate id update s).1.filter (fun v => v.id != id) =
      s.filter (fun v => v.id != id) := by
  induction s with
  | nil => rfl
  | cons v vs ih =>
    unfold findByIdAndUpdate
    by_cases hv : v.id = id
    · rw [if_pos hv]
      have h1 : ((update v).id != id) = false := by rw [hid]; simpa using hv
      have h2 : (v.id != id) = false := by simpa using hv
      rw [List.filter_cons, List.filter_cons]
      simp only [h1, h2]
      rfl
    · rw [if_neg hv]
      show List.filter _ (v :: (findByIdAndUpdate id update vs).1) = _
      rw [List.filter_cons, List.filter_cons, ih]

theorem findByIdAndUpdate_forall (P : User → Prop) (id : Nat) (update : User → User)
    (hupdate : ∀ v, P v → P (update v)) (s : Store) (hs : ∀ v ∈ s, P v) :
    ∀ v ∈ (findByIdAndUpdate id update s).1, P v := by
  induction s with
  | nil => intro v hv; exact absurd hv (List.not_mem_nil v)
  | cons w ws ih =>
    unfold findByIdAndUpdate
    have hw : P w := hs w (List.mem_cons_self w ws)
    have hws : ∀ v ∈ ws, P v := fun v hv => hs v (List.mem_cons_of_mem w hv)
    by_cases h : w.id = id
    · rw [if_pos h]
      intro v hv
      rcases List.mem_cons.mp hv with rfl | hv
      · exact hupdate w hw
      · exact hws v hv
    · rw [if_neg h]
      intro v hv
      rcases List.mem_cons.mp hv with rfl | hv
      · exact hw
      · exact ih hws v hv

theorem findById_append_of_some {s : Store} {id : Nat} {u : User}
    (h : findById s id = some u) (t : Store) : findById (s ++ t) id = some u := by
  unfold findById at h ⊢
  rw [List.find?_append, h]
  rfl

/-! ### The protected handlers, account found or not -/

theorem getProfile_found (c : Claims) {s : Store} {u : User}
    (hu : findById s c.userId = some u) :
    getProfile c s = (s, ⟨200, .user u.selectMinusPassword⟩) := by
  unfold getProfile
  rw [hu]

theorem getProfile_missing (c : Claims) {s : Store} (hu : findById s c.userId = none) :
    getProfile c s = (s, ⟨404, .message "User not found."⟩) := by
  unfold getProfile
  rw [hu]

theorem getFollowups_missing (c : Claims) {s : Store} (hu : findById s c.userId = none) :
    getFollowups c s = (s, ⟨404, .message "User not found."⟩) := by
  unfold getFollowups
  rw [hu]

theorem updateProfile_missing (L : Libs) (req : Req) (c : Claims) {s : Store}
    (hu : findById s c.userId = none) :
    updateProfile L req c s = (s, ⟨404, .message "User not found."⟩) := by
  unfold updateProfile
  simp only [findByIdAndUpdate_none _ _ hu]

theorem validAnalysis_of_contains {v : Option String}
    (h : [some "vata", some "pitta", some "kapha"].contains v = true) :
    v = some "vata" ∨ v = some "pitta" ∨ v = some "kapha" := by
  rw [List.contains_iff_exists_mem_beq] at h
  obtain ⟨x, hx, hbeq⟩ := h
  have hxe : v = x := eq_of_beq hbeq
  simp only [List.mem_cons, List.mem_singleton, List.mem_nil_iff, or_false] at hx
  rcases hx with hx | hx | hx
  · exact Or.inl (hxe.trans hx)
  · exact Or.inr (Or.inl (hxe.trans hx))
  · exact Or.inr (Or.inr (hxe.trans hx))

theorem contains_of_validAnalysis {v : Option String}
    (h : v = some "vata" ∨ v = some "pitta" ∨ v = some "kapha") :
    [some "vata", some "pitta", some "kapha"].contains v = true := by
  rcases h with h | h | h <;> subst h <;> decide

theorem saveAnalysis_invalid (req : Req) (c : Claims) (s : Store)
    (h : [some "vata", some "pitta", some "kapha"].contains req.body.analysisResult = false) :
    saveAnalysis req c s = (s, ⟨400, .message "Invalid analysis result."⟩) := by
  unfold saveAnalysis
  simp only [h, Bool.not_false, if_true]

theorem saveAnalysis_valid (req : Req) (c : Claims) (s : Store)
    (h : [some "vata", some "pitta", some "kapha"].contains req.body.analysisResult = true) :
    saveAnalysis req c s =
      match (findByIdAndUpdate c.userId
        (fun u => { u with analysisResult := req.body.analysisResult }) s).2 with
      | none =>
        ((findByIdAndUpdate c.userId
          (fun u => { u with analysisResult := req.body.analysisResult }) s).1,
          ⟨404, .message "User not found."⟩)
      | some u =>
        ((findByIdAndUpdate c.userId
          (fun u => { u with analysisResult := req.body.analysisResult }) s).1,
          ⟨200, .messageUser "Analysis saved!" u.selectMinusPassword⟩) := by
  unfold saveAnalysis
  simp only [h, Bool.not_true, Bool.false_eq_true, if_false]

theorem saveAnalysis_found (req : Req) (c : Claims) {s : Store} {u : User}
    (h : [some "vata", some "pitta", some "kapha"].contains req.body.analysisResult = true)
    (hu : findById s c.userId = some u) :
    (saveAnalysis req c s).2 =
      ⟨200, .messageUser "Analysis saved!"
        ({ u with analysisResult := req.body.analysisResult } : User).selectMinusPassword⟩ ∧
    findById (saveAnalysis req c s).1 c.userId =
      some { u with analysisResult := req.body.analysisResult } := by
  have hf := findByIdAndUpdate_some c.userId
    (fun u => { u with analysisResult := req.body.analysisResult }) (fun _ => rfl) hu
  rw [saveAnalysis_valid req c s h]
  simp only [hf.1]
  exact ⟨trivial, hf.2⟩

theorem saveAnalysis_missing (req : Req) (c : Claims) {s : Store}
    (h : [some "vata", some "pitta", some "kapha"].contains req.body.analysisResult = true)
    (hu : findById s c.userId = none) :
    saveAnalysis req c s = (s, ⟨404, .message "User not found."⟩) := by
  rw [saveAnalysis_valid req c s h]
  simp only [findByIdAndUpdate_none _ _ hu]

theorem addFollowup_rejected (req : Req) (c : Claims) (s : Store)
    (h : req.body.text = none ∨ req.body.text = some "") :
    addFollowup req c s = (s, ⟨400, .message "Feedback text is required."⟩) := by
  unfold addFollowup
  rcases h with h | h <;> rw [h]
  simp only [if_true]

theorem addFollowup_missing (req : Req) (c : Claims) {s : Store} {text : String}
    (ht : req.body.text = some text) (hne : text ≠ "")
    (hu : findById s c.userId = none) :
    addFollowup req c s = (s, ⟨404, .message "User not found."⟩) := by
  unfold addFollowup
  rw [ht]
  simp only [if_neg hne, findByIdAndUpdate_none _ _ hu]

theorem addFollowup_store (req : Req) (c : Claims) (s : Store) :
    (addFollowup req c s).1 = s ∨
    ∃ text, req.body.text = some text ∧ text ≠ "" ∧
      (addFollowup req c s).1 =
        (findByIdAndUpdate c.userId
          (fun u => { u with followups := u.followups ++ [⟨text, req.now⟩] }) s).1 := by
  cases ht : req.body.text with
  | none => left; rw [addFollowup_rejected req c s (Or.inl ht)]
  | some text =>
    by_cases hne : text = ""
    · left; rw [addFollowup_rejected req c s (Or.inr (by rw [ht, hne]))]
    · right
      refine ⟨text, rfl, hne, ?_⟩
      unfold addFollowup
      rw [ht]
      simp only [if_neg hne]
      split
      · rfl
      · split <;> rfl

theorem saveAnalysis_store (req : Req) (c : Claims) (s : Store) :
    (saveAnalysis req c s).1 = s ∨
    ((req.body.analysisResult = some "vata" ∨ req.body.analysisResult = some "pitta" ∨
        req.body.analysisResult = some "kapha") ∧
      (saveAnalysis req c s).1 =
        (findByIdAndUpdate c.userId
          (fun u => { u with analysisResult := req.body.analysisResult }) s).1) := by
  cases h : [some "vata", some "pitta", some "kapha"].contains req.body.analysisResult with
  | false => left; rw [saveAnalysis_invalid req c s h]
  | true =>
    right
    refine ⟨validAnalysis_of_contains h, ?_⟩
    rw [saveAnalysis_valid req c s h]
    split <;> rfl

theorem updateProfile_store (L : Libs) (req : Req) (c : Claims) (s : Store) :
    (updateProfile L req c s).1 =
      (findByIdAndUpdate c.userId
        (fun u => { u with
          personal := setPath L.undefinedKeys {} req.body.personal u.personal,
          health := setPath L.undefinedKeys {} req.body.health u.health,
          lastUpdated := some req.now }) s).1 := by
  unfold updateProfile
  simp only
  split <;> rfl

/-! ### The classification stored -/

theorem handle_classification (L : Libs) (route : Route) (req : Req) (s : Store)
    (h : ∀ u ∈ s, u.analysisResult = none ∨ u.analysisResult = some "vata" ∨
      u.analysisResult = some "pitta" ∨ u.analysisResult = some "kapha") :
    ∀ u ∈ (handle L route req s).1, u.analysisResult = none ∨
      u.analysisResult = some "vata" ∨ u.analysisResult = some "pitta" ∨
      u.analysisResult = some "kapha" := by
  let P : Store → Prop := fun t => ∀ u ∈ t, u.analysisResult = none ∨
    u.analysisResult = some "vata" ∨ u.analysisResult = some "pitta" ∨
    u.analysisResult = some "kapha"
  show P (handle L route req s).1
  have hP : P s := h
  cases route with
  | register =>
    show P (register L req s).1
    rcases register_store L req s with hs | ⟨email, password, _, _, _, _, _, hs⟩
    · rw [hs]; exact h
    · rw [hs]
      intro u hu
      rcases List.mem_append.mp hu with hu | hu
      · exact h u hu
      · rw [List.mem_singleton.mp hu]
        exact Or.inl rfl
  | login => show P (login L req s).1; rw [login_store]; exact h
  | getProfile =>
    exact authMiddleware_store P _ _ _ _ hP (fun c => by rw [getProfile_store]; exact h)
  | updateProfile =>
    refine authMiddleware_store P _ _ _ _ hP (fun c => ?_)
    rw [updateProfile_store]
    exact findByIdAndUpdate_forall _ _ _ (by intro v hv; exact hv) s h
  | saveAnalysis =>
    refine authMiddleware_store P _ _ _ _ hP (fun c => ?_)
    rcases saveAnalysis_store req c s with hs | ⟨hvalid, hs⟩
    · rw [hs]; exact h
    · rw [hs]
      exact findByIdAndUpdate_forall _ _ _ (by intro v _; exact Or.inr hvalid) s h
  | getFollowups =>
    exact authMiddleware_store P _ _ _ _ hP (fun c => by rw [getFollowups_store]; exact h)
  | addFollowup =>
    refine authMiddleware_store P _ _ _ _ hP (fun c => ?_)
    rcases addFollowup_store req c s with hs | ⟨text, _, _, hs⟩
    · rw [hs]; exact h
    · rw [hs]
      exact findByIdAndUpdate_forall _ _ _ (by intro v hv; exact hv) s h

/-! ### Responses as functions of the caller's record without its password -/

theorem getProfile_congr (c : Claims) (s₁ s₂ : Store)
    (h : (findById s₁ c.userId).map User.selectMinusPassword =
      (findById s₂ c.userId).map User.selectMinusPassword) :
    (getProfile c s₁).2 = (getProfile c s₂).2 := by
  cases h1 : findById s₁ c.userId with
  | none =>
    cases h2 : findById s₂ c.userId with
    | none => rw [getProfile_missing c h1, getProfile_missing c h2]
    | some u₂ => rw [h1, h2] at h; exact absurd h (by simp)
  | some u₁ =>
    cases h2 : findById s₂ c.userId with
    | none => rw [h1, h2] at h; exact absurd h (by simp)
    | some u₂ =>
      rw [h1, h2] at h
      rw [getProfile_found c h1, getProfile_found c h2, Option.some.inj h]

theorem getFollowups_congr (c : Claims) (s₁ s₂ : Store)
    (h : (findById s₁ c.userId).map User.selectMinusPassword =
      (findById s₂ c.userId).map User.selectMinusPassword) :
    (getFollowups c s₁).2 = (getFollowups c s₂).2 := by
  cases h1 : findById s₁ c.userId with
  | none =>
    cases h2 : findById s₂ c.userId with
    | none => rw [getFollowups_missing c h1, getFollowups_missing c h2]
    | some u₂ => rw [h1, h2] at h; exact absurd h (by simp)
  | some u₁ =>
    cases h2 : findById s₂ c.userId with
    | none => rw [h1, h2] at h; exact absurd h (by simp)
    | some u₂ =>
      rw [h1, h2] at h
      have hf : u₁.followups = u₂.followups := congrArg Profile.followups (Option.some.inj h)
      rw [getFollowups_found c h1, getFollowups_found c h2, hf]

theorem updateProfile_congr (L : Libs) (req : Req) (c : Claims) (s₁ s₂ : Store)
    (h : (findById s₁ c.userId).map User.selectMinusPassword =
      (findById s₂ c.userId).map User.selectMinusPassword) :
    (updateProfile L req c s₁).2 = (updateProfile L req c s₂).2 := by
  cases h1 : findById s₁ c.userId with
  | none =>
    cases h2 : findById s₂ c.userId with
    | none => rw [updateProfile_missing L req c h1, updateProfile_missing L req c h2]
    | some u₂ => rw [h1, h2] at h; exact absurd h (by simp)
  | some u₁ =>
    cases h2 : findById s₂ c.userId with
    | none => rw [h1, h2] at h; exact absurd h (by simp)
    | some u₂ =>
      rw [h1, h2] at h
      have hp := Option.some.inj h
      rw [(updateProfile_found L req c h1).1, (updateProfile_found L req c h2).1]
      cases u₁; cases u₂
      simp only [User.selectMinusPassword, Profile.mk.injEq] at hp
      obtain ⟨e1, e2, e3, e4, e5, _, e7⟩ := hp
      simp only [User.selectMinusPassword, e1, e2, e3, e4, e5, e7]

theorem saveAnalysis_congr (req : Req) (c : Claims) (s₁ s₂ : Store)
    (h : (findById s₁ c.userId).map User.selectMinusPassword =
      (findById s₂ c.userId).map User.selectMinusPassword) :
    (saveAnalysis req c s₁).2 = (saveAnalysis req c s₂).2 := by
  cases hv : [some "vata", some "pitta", some "kapha"].contains req.body.analysisResult with
  | false => rw [saveAnalysis_invalid req c s₁ hv, saveAnalysis_invalid req c s₂ hv]
  | true =>
    cases h1 : findById s₁ c.userId with
    | none =>
      cases h2 : findById s₂ c.userId with
      | none => rw [saveAnalysis_missing req c hv h1, saveAnalysis_missing req c hv h2]
      | some u₂ => rw [h1, h2] at h; exact absurd h (by simp)
    | some u₁ =>
      cases h2 : findById s₂ c.userId with
      | none => rw [h1, h2] at h; exact absurd h (by simp)
      | some u₂ =>
        rw [h1, h2] at h
        have hp := Option.some.inj h
        rw [(saveAnalysis_found req c hv h1).1, (saveAnalysis_found req c hv h2).1]
        cases u₁; cases u₂
        simp only [User.selectMinusPassword, Profile.mk.injEq] at hp
        obtain ⟨e1, e2, e3, e4, _, e6, e7⟩ := hp
        simp only [User.selectMinusPassword, e1, e2, e3, e4, e6, e7]

theorem addFollowup_congr (req : Req) (c : Claims) (s₁ s₂ : Store)
    (h : (findById s₁ c.userId).map User.selectMinusPassword =
      (findById s₂ c.userId).map User.selectMinusPassword) :
    (addFollowup req c s₁).2 = (addFollowup req c s₂).2 := by
  cases ht : req.body.text with
  | none => rw [addFollowup_rejected req c s₁ (Or.inl ht), addFollowup_rejected req c s₂ (Or.inl ht)]
  | some text =>
    by_cases hne : text = ""
    · have hr : req.body.text = none ∨ req.body.text = some "" := Or.inr (by rw [ht, hne])
      rw [addFollowup_rejected req c s₁ hr, addFollowup_rejected req c s₂ hr]
    · cases h1 : findById s₁ c.userId with
      | none =>
        cases h2 : findById s₂ c.userId with
        | none => rw [addFollowup_missing req c ht hne h1, addFollowup_missing req c ht hne h2]
        | some u₂ => rw [h1, h2] at h; exact absurd h (by simp)
      | some u₁ =>
        cases h2 : findById s₂ c.userId with
        | none => rw [h1, h2] at h; exact absurd h (by simp)
        | some u₂ =>
          rw [(addFollowup_found req c ht hne h1).1, (addFollowup_found req c ht hne h2).1]

theorem handle_congr (L : Libs) (route : Route) (req : Req) (c : Claims) (s₁ s₂ : Store)
    (hroute : route ≠ .register ∧ route ≠ .login)
    (hcred : credential L.jwt req = some c)
    (h : (findById s₁ c.userId).map User.selectMinusPassword =
      (findById s₂ c.userId).map User.selectMinusPassword) :
    (handle L route req s₁).2 = (handle L route req s₂).2 := by
  cases route with
  | register => exact absurd rfl hroute.1
  | login => exact absurd rfl hroute.2
  | getProfile =>
    show (authMiddleware L.jwt req getProfile s₁).2 = (authMiddleware L.jwt req getProfile s₂).2
    rw [authMiddleware_of_credential hcred, authMiddleware_of_credential hcred]
    exact getProfile_congr c s₁ s₂ h
  | updateProfile =>
    show (authMiddleware L.jwt req (updateProfile L req) s₁).2 =
      (authMiddleware L.jwt req (updateProfile L req) s₂).2
    rw [authMiddleware_of_credential hcred, authMiddleware_of_credential hcred]
    exact updateProfile_congr L req c s₁ s₂ h
  | saveAnalysis =>
    show (authMiddleware L.jwt req (saveAnalysis req) s₁).2 =
      (authMiddleware L.jwt req (saveAnalysis req) s₂).2
    rw [authMiddleware_of_credential hcred, authMiddleware_of_credential hcred]
    exact saveAnalysis_congr req c s₁ s₂ h
  | getFollowups =>
    show (authMiddleware L.jwt req getFollowups s₁).2 =
      (authMiddleware L.jwt req getFollowups s₂).2
    rw [authMiddleware_of_credential hcred, authMiddleware_of_credential hcred]
    exact getFollowups_congr c s₁ s₂ h
  | addFollowup =>
    show (authMiddleware L.jwt req (addFollowup req) s₁).2 =
      (authMiddleware L.jwt req (addFollowup req) s₂).2
    rw [authMiddleware_of_credential hcred, authMiddleware_of_credential hcred]
    exact addFollowup_congr req c s₁ s₂ h

theorem handle_filter (L : Libs) (route : Route) (req : Req) (c : Claims) (s : Store)
    (hroute : route ≠ .register ∧ route ≠ .login)
    (hcred : credential L.jwt req = some c) :
    (handle L route req s).1.filter (fun v => v.id != c.userId) =
      s.filter (fun v => v.id != c.userId) := by
  cases route with
  | register => exact absurd rfl hroute.1
  | login => exact absurd rfl hroute.2
  | getProfile =>
    show (authMiddleware L.jwt req getProfile s).1.filter _ = _
    rw [authMiddleware_of_credential hcred, getProfile_store]
  | updateProfile =>
    show (authMiddleware L.jwt req (updateProfile L req) s).1.filter _ = _
    rw [authMiddleware_of_credential hcred, updateProfile_store]
    exact findByIdAndUpdate_filter _ _ (by intro v; rfl) s
  | saveAnalysis =>
    show (authMiddleware L.jwt req (saveAnalysis req) s).1.filter _ = _
    rw [authMiddleware_of_credential hcred]
    rcases saveAnalysis_store req c s with hs | ⟨_, hs⟩
    · rw [hs]
    · rw [hs]
      exact findByIdAndUpdate_filter _ _ (by intro v; rfl) s
  | getFollowups =>
    show (authMiddleware L.jwt req getFollowups s).1.filter _ = _
    rw [authMiddleware_of_credential hcred, getFollowups_store]
  | addFollowup =>
    show (authMiddleware L.jwt req (addFollowup req) s).1.filter _ = _
    rw [authMiddleware_of_credential hcred]
    rcases addFollowup_store req c s with hs | ⟨text, _, _, hs⟩
    · rw [hs]
    · rw [hs]
      exact findByIdAndUpdate_filter _ _ (by intro v; rfl) s

theorem findById_map_password (password : User → String) (s : Store) (id : Nat) :
    (findById (s.map (fun v => { v with password := password v })) id).map
        User.selectMinusPassword =
      (findById s id).map User.selectMinusPassword := by
  induction s with
  | nil => rfl
  | cons v vs ih =>
    unfold findById at ih ⊢
    rw [List.map_cons, List.find?_cons, List.find?_cons]
    cases hb : (v.id == id) with
    | true => rfl
    | false => exact ih

theorem calculateDosha_label (answers : List String) :
    calculateDosha answers = "vata" ∨ calculateDosha answers = "pitta" ∨
      calculateDosha answers = "kapha" := by
  rw [calculateDosha_eq]
  unfold referenceTally
  split
  · exact Or.inl rfl
  · split
    · exact Or.inr (Or.inl rfl)
    · exact Or.inr (Or.inr rfl)

/-! ### The segments of the authorization header -/

theorem split_length (sep : Char) (cs : List Char) :
    (split sep cs).length = cs.count sep + 1 := by
  induction cs with
  | nil => rfl
  | cons c cs ih =>
    unfold split
    by_cases h : c = sep
    · subst h
      rw [if_pos rfl, List.length_cons, ih, List.count_cons_self]
    · rw [if_neg h, List.count_cons_of_ne (fun e => h e.symm)]
      cases hs : split sep cs with
      | nil => rw [hs] at ih; simp at ih
      | cons seg rest => rw [hs] at ih; simpa using ih

theorem split_of_not_mem (sep : Char) (cs : List Char) (h : sep ∉ cs) :
    split sep cs = [cs] := by
  induction cs with
  | nil => rfl
  | cons c cs ih =>
    unfold split
    have hc : ¬ c = sep := fun e => h (e ▸ List.mem_cons_self c cs)
    rw [if_neg hc, ih (fun hm => h (List.mem_cons_of_mem c hm))]

theorem split_cons_sep (sep : Char) (cs : List Char) :
    split sep (sep :: cs) = [] :: split sep cs := by
  conv_lhs => unfold split
  rw [if_pos rfl]

theorem split_cons_of_ne (sep c : Char) (cs : List Char) (h : ¬ c = sep) :
    split sep (c :: cs) =
      match split sep cs with
      | seg :: rest => (c :: seg) :: rest
      | [] => [[c]] := by
  conv_lhs => unfold split
  rw [if_neg h]

theorem split_append_sep (sep : Char) (word rest : List Char) (h : sep ∉ word) :
    split sep (word ++ sep :: rest) = word :: split sep rest := by
  induction word with
  | nil => exact split_cons_sep sep rest
  | cons c cs ih =>
    have hc : ¬ c = sep := fun e => h (e ▸ List.mem_cons_self c cs)
    show split sep (c :: (cs ++ sep :: rest)) = _
    rw [split_cons_of_ne sep c _ hc, ih (fun hm => h (List.mem_cons_of_mem c hm))]

theorem split_get?_one_eq_none (sep : Char) (cs : List Char) :
    (split sep cs).get? 1 = none ↔ sep ∉ cs := by
  rw [List.get?_eq_none, split_length]
  constructor
  · intro h
    exact List.count_eq_zero.mp (by omega)
  · intro h
    rw [List.count_eq_zero.mpr h]

theorem string_eq_empty_iff (h : String) : h = "" ↔ h.toList = [] := by
  constructor
  · intro e; rw [e]; rfl
  · intro e
    cases h with
    | mk cs =>
      have : cs = [] := e
      rw [this]

theorem tokenOf_eq_none_iff (authHeader : Option String) :
    tokenOf authHeader = none ↔
      authHeader = none ∨ ∃ h, authHeader = some h ∧ h ≠ "" ∧ ' ' ∉ h.toList := by
  cases authHeader with
  | none => exact ⟨fun _ => Or.inl rfl, fun _ => rfl⟩
  | some h =>
    unfold tokenOf
    by_cases he : h = ""
    · simp only [if_pos he]
      constructor
      · intro hn; exact absurd hn (by simp)
      · rintro (hn | ⟨h', hh, hne, _⟩)
        · exact absurd hn (by simp)
        · exact absurd ((Option.some.inj hh) ▸ he) hne
    · simp only [if_neg he, Option.map_eq_none', split_get?_one_eq_none]
      constructor
      · intro hn; exact Or.inr ⟨h, rfl, he, hn⟩
      · rintro (hn | ⟨h', hh, _, hns⟩)
        · exact absurd hn (by simp)
        · rw [Option.some.inj hh]; exact hns

theorem tokenOf_scheme (scheme rest : List Char) (h : ' ' ∉ scheme) :
    tokenOf (some (String.mk (scheme ++ ' ' :: rest))) =
      ((split ' ' rest).head?).map String.mk := by
  unfold tokenOf
  have hne : ¬ String.mk (scheme ++ ' ' :: rest) = "" := by
    rw [string_eq_empty_iff]
    show ¬ scheme ++ ' ' :: rest = []
    simp
  simp only [if_neg hne]
  show ((split ' ' (scheme ++ ' ' :: rest)).get? 1).map String.mk = _
  rw [split_append_sep ' ' scheme rest h]
  cases split ' ' rest <;> rfl

theorem jwtVerify_empty (J : Jwt) (now : Nat) : jwtVerify J now "" = none := by
  unfold jwtVerify
  rw [if_pos rfl]

theorem authMiddleware_of_token (J : Jwt) (req : Req)
    (next : Claims → Store → Store × Response) (s : Store) (token : String)
    (h : tokenOf req.authorization = some token) :
    authMiddleware J req next s =
      match jwtVerify J req.now token with
      | none => (s, ⟨403, .statusText "Forbidden"⟩)
      | some user => next user s := by
  unfold authMiddleware
  rw [h]

/-! ### The sample signing scheme -/

theorem takeUnaryFrom_replicate (c d : Char) (h : d ≠ c) (n k : Nat) (rest : List Char) :
    takeUnaryFrom c k (List.replicate n c ++ d :: rest) = (k + n, d :: rest) := by
  induction n generalizing k with
  | zero =>
    show takeUnaryFrom c k (d :: rest) = _
    unfold takeUnaryFrom
    rw [if_neg h]
    rfl
  | succ n ih =>
    show takeUnaryFrom c k (c :: (List.replicate n c ++ d :: rest)) = _
    unfold takeUnaryFrom
    rw [if_pos rfl, ih]
    congr 1
    omega

theorem takeUnary_replicate (c d : Char) (h : d ≠ c) (n : Nat) (rest : List Char) :
    takeUnary c (List.replicate n c ++ d :: rest) = (n, d :: rest) := by
  unfold takeUnary
  rw [takeUnaryFrom_replicate c d h n 0 rest, Nat.zero_add]

theorem decodeClaims_encodeClaims (payload : Claims) :
    decodeClaims (encodeClaims payload) = some payload := by
  obtain ⟨userId, email, iat, exp⟩ := payload
  unfold decodeClaims encodeClaims
  cases exp with
  | none =>
    simp only [takeUnary_replicate 'u' '.' (by decide), takeUnary_replicate 'i' '.' (by decide)]
    rfl
  | some exp =>
    simp only [takeUnary_replicate 'u' '.' (by decide), takeUnary_replicate 'i' '.' (by decide),
      takeUnary_replicate 'e' '.' (by decide)]
    rfl

theorem roundtripLibs_decode_sign (payload : Claims) :
    roundtripLibs.jwt.decode (roundtripLibs.jwt.sign payload) = some payload :=
  decodeClaims_encodeClaims payload

theorem roundtripLibs_sign_ne_empty (payload : Claims) :
    roundtripLibs.jwt.sign payload ≠ "" := by
  intro h
  have hd : encodeClaims payload = [] := congrArg String.data h
  unfold encodeClaims at hd
  simp at hd

/-! ### Login and the minted token -/

theorem login_string_email (L : Libs) (req : Req) (s : Store) (email : String)
    (huniq : UniqueEmails s) (hemail : req.body.email = .str email) :
    ((login L req s).2.status = 200 ↔
      ∃ u ∈ s, u.email = email ∧ ∃ password, req.body.password = .str password ∧
        L.bcrypt.compare password u.password = true) ∧
    (∀ u ∈ s, u.email = email → ∀ password, req.body.password = .str password →
      L.bcrypt.compare password u.password = true →
      login L req s =
        (s, ⟨200, .login "Login successful!"
          (L.jwt.sign ⟨u.id, u.email, req.now / 1000,
            some (req.now / 1000 + 24 * 60 * 60)⟩) u.id⟩)) := by
  have key : ∀ u ∈ s, u.email = email → ∀ password, req.body.password = .str password →
      L.bcrypt.compare password u.password = true →
      login L req s =
        (s, ⟨200, .login "Login successful!"
          (L.jwt.sign ⟨u.id, u.email, req.now / 1000,
            some (req.now / 1000 + 24 * 60 * 60)⟩) u.id⟩) := by
    intro u hu he password hp hm
    have hf : findOne s req.body.email = some u := by
      rw [hemail, ← he]; exact findOne_of_mem huniq hu
    rw [login_found L req s u password hf hp, if_pos hm]
    rfl
  refine ⟨⟨?_, ?_⟩, key⟩
  · intro h
    cases hf : findOne s req.body.email with
    | none => rw [login_not_found L req s hf] at h; exact absurd h (by simp)
    | some u =>
      have hfe := hf
      rw [hemail] at hfe
      obtain ⟨hu, he⟩ := findOne_str_eq_some hfe
      by_cases hp : ∃ password, req.body.password = .str password
      · obtain ⟨password, hp⟩ := hp
        refine ⟨u, hu, he, password, hp, ?_⟩
        rw [login_found L req s u password hf hp] at h
        cases hm : L.bcrypt.compare password u.password with
        | true => rfl
        | false => rw [hm] at h; simp at h
      · rw [login_password_not_string L req s u hf (fun password e => hp ⟨password, e⟩)] at h
        exact absurd h (by simp)
  · rintro ⟨u, hu, he, password, hp, hm⟩
    rw [key u hu he password hp hm]

theorem login_string_failures (L : Libs) (s : Store) (req₁ req₂ : Req) (u : User)
    (email₁ password : String) (huniq : UniqueEmails s)
    (hemail₁ : req₁.body.email = .str email₁) (hunknown : ∀ v ∈ s, v.email ≠ email₁)
    (hu : u ∈ s) (hemail₂ : req₂.body.email = .str u.email)
    (hpassword : req₂.body.password = .str password)
    (hwrong : L.bcrypt.compare password u.password = false) :
    login L req₁ s = (s, ⟨400, .message "Invalid email or password."⟩) ∧
    login L req₂ s = (s, ⟨400, .message "Invalid email or password."⟩) := by
  constructor
  · apply login_not_found
    rw [hemail₁]
    exact findOne_none_of_not_mem hunknown
  · have hf : findOne s req₂.body.email = some u := by
      rw [hemail₂]; exact findOne_of_mem huniq hu
    rw [login_found L req₂ s u password hf hpassword, hwrong]
    rfl

theorem jwtVerify_minted (J : Jwt) (userId : Nat) (email : String) (issued : Nat)
    (hroundtrip : ∀ payload, J.decode (J.sign payload) = some payload)
    (hnonempty : ∀ payload, J.sign payload ≠ "") (t : Nat) :
    jwtVerify J t (jwtSign J userId email issued) =
      if issued / 1000 + 24 * 60 * 60 ≤ t / 1000 then none
      else some ⟨userId, email, issued / 1000, some (issued / 1000 + 24 * 60 * 60)⟩ := by
  unfold jwtVerify jwtSign
  simp only [if_neg (hnonempty _), hroundtrip, expiresIn, ge_iff_le]

/-! ## The claims -/

/-- C1: for answers each labelled vata, pitta or kapha, with counts cv, cp,
ck (which add up to the number of answers), `calculateDosha` equals the
reference tally: it is "vata" when cv ≥ cp and cv ≥ ck, "pitta" when cp > cv
and cp ≥ ck, "kapha" when ck > cv and ck > cp; and
[vata, vata, pitta, pitta, kapha] gives "vata". -/
theorem calculateDosha_reference_tally (answers : List String)
    (hlabel : ∀ a ∈ answers, a = "vata" ∨ a = "pitta" ∨ a = "kapha") :
    answers.count "vata" + answers.count "pitta" + answers.count "kapha" = answers.length ∧
    calculateDosha answers =
      referenceTally (answers.count "vata") (answers.count "pitta") (answers.count "kapha") ∧
    (answers.count "vata" ≥ answers.count "pitta" ∧
      answers.count "vata" ≥ answers.count "kapha" → calculateDosha answers = "vata") ∧
    (answers.count "pitta" > answers.count "vata" ∧
      answers.count "pitta" ≥ answers.count "kapha" → calculateDosha answers = "pitta") ∧
    (answers.count "kapha" > answers.count "vata" ∧
      answers.count "kapha" > answers.count "pitta" → calculateDosha answers = "kapha") ∧
    calculateDosha ["vata", "vata", "pitta", "pitta", "kapha"] = "vata" := by
  refine ⟨count_labels answers hlabel, calculateDosha_eq answers, ?_, ?_, ?_, by decide⟩
  · intro h
    rw [calculateDosha_eq, referenceTally, if_pos h]
  · intro h
    rw [calculateDosha_eq, referenceTally,
      if_neg (show ¬ (answers.count "vata" ≥ answers.count "pitta" ∧
        answers.count "vata" ≥ answers.count "kapha") by omega), if_pos h]
  · intro h
    rw [calculateDosha_eq, referenceTally,
      if_neg (show ¬ (answers.count "vata" ≥ answers.count "pitta" ∧
        answers.count "vata" ≥ answers.count "kapha") by omega),
      if_neg (show ¬ (answers.count "pitta" > answers.count "vata" ∧
        answers.count "pitta" ≥ answers.count "kapha") by omega)]

/-- C1 at the answers [kapha, pitta, kapha, vata, kapha]: the labels are
admissible and the result is "kapha". -/
theorem calculateDosha_reference_tally_witness :
    (∀ a ∈ ["kapha", "pitta", "kapha", "vata", "kapha"],
      a = "vata" ∨ a = "pitta" ∨ a = "kapha") ∧
    calculateDosha ["kapha", "pitta", "kapha", "vata", "kapha"] = "kapha" :=
  ⟨by decide,
   (calculateDosha_reference_tally ["kapha", "pitta", "kapha", "vata", "kapha"]
      (by decide)).2.2.2.2.1 (by decide)⟩

/-- C2: with a verified credential, `POST /api/user/analysis` answers 400 to
every value that is not one of the strings "vata", "pitta", "kapha" (an absent
value included), and the store after the request is the store before it. -/
theorem saveAnalysis_rejects_other_values (L : Libs) (req : Req) (s : Store) (c : Claims)
    (hcred : credential L.jwt req = some c)
    (hvalue : req.body.analysisResult ≠ some "vata" ∧
      req.body.analysisResult ≠ some "pitta" ∧ req.body.analysisResult ≠ some "kapha") :
    handle L .saveAnalysis req s = (s, ⟨400, .message "Invalid analysis result."⟩) := by
  obtain ⟨h1, h2, h3⟩ := hvalue
  show authMiddleware L.jwt req (saveAnalysis req) s = _
  rw [authMiddleware_of_credential hcred]
  unfold saveAnalysis
  have hnot : [some "vata", some "pitta", some "kapha"].contains req.body.analysisResult
      = false := by
    rw [Bool.eq_false_iff]
    intro hmem
    rw [List.contains_iff_exists_mem_beq] at hmem
    obtain ⟨x, hx, hbeq⟩ := hmem
    have hxe : req.body.analysisResult = x := by simpa using hbeq
    simp only [List.mem_cons, List.mem_singleton, List.mem_nil_iff, or_false] at hx
    rcases hx with hx | hx | hx
    · exact h1 (hxe.trans hx)
    · exact h2 (hxe.trans hx)
    · exact h3 (hxe.trans hx)
  simp only [hnot, Bool.not_false, if_true]

/-- C2 at the value "Vata" (wrong case) sent by account 1, whose stored
classification "pitta" is kept. -/
theorem saveAnalysis_rejects_other_values_witness :
    credential (sampleLibs .stripped).jwt
      { authorization := some "Bearer t1", body := { analysisResult := some "Vata" }, now := 200 }
      = some ⟨1, "a@x.org", 100, some 86500⟩ ∧
    handle (sampleLibs .stripped) .saveAnalysis
      { authorization := some "Bearer t1", body := { analysisResult := some "Vata" }, now := 200 }
      [⟨1, "a@x.org", "#pw", {}, {}, some "pitta", none, []⟩] =
      ([⟨1, "a@x.org", "#pw", {}, {}, some "pitta", none, []⟩],
        ⟨400, .message "Invalid analysis result."⟩) :=
  ⟨by decide,
   saveAnalysis_rejects_other_values (sampleLibs .stripped)
     { authorization := some "Bearer t1", body := { analysisResult := some "Vata" }, now := 200 }
     [⟨1, "a@x.org", "#pw", {}, {}, some "pitta", none, []⟩] ⟨1, "a@x.org", 100, some 86500⟩
     (by decide) (by decide)⟩

/-- C3 at an email that is the query object {"$gt": ""}: with the password of
the first account, login answers 200 with that account's id and token, though
the submitted email is equal to no stored email; for an email submitted as a
string, in a store that satisfies the unique index, login answers 200 if and
only if some account has exactly that email and its hash matches the
submitted password, and the response carries that account's id and a token
signed over its id and email. -/
theorem login_operator_email_selects_account :
    login (sampleLibs .stripped)
      { body := { email := .operator (.gt ""), password := .str "pw" }, now := 5000 }
      [⟨1, "a@x.org", "#pw", {}, {}, none, none, []⟩] =
      ([⟨1, "a@x.org", "#pw", {}, {}, none, none, []⟩],
        ⟨200, .login "Login successful!" "t1" 1⟩) ∧
    (∀ u ∈ [(⟨1, "a@x.org", "#pw", {}, {}, none, none, []⟩ : User)],
      JsonValue.operator (.gt "") ≠ .str u.email) ∧
    (∀ (L : Libs) (req : Req) (s : Store) (email : String), UniqueEmails s →
      req.body.email = .str email →
      ((login L req s).2.status = 200 ↔
        ∃ u ∈ s, u.email = email ∧ ∃ password, req.body.password = .str password ∧
          L.bcrypt.compare password u.password = true) ∧
      (∀ u ∈ s, u.email = email → ∀ password, req.body.password = .str password →
        L.bcrypt.compare password u.password = true →
        login L req s =
          (s, ⟨200, .login "Login successful!"
            (L.jwt.sign ⟨u.id, u.email, req.now / 1000,
              some (req.now / 1000 + 24 * 60 * 60)⟩) u.id⟩))) :=
  ⟨by decide, fun _ _ h => by simp at h,
   fun L req s email huniq hemail => login_string_email L req s email huniq hemail⟩

/-- C4 at a login that omits the password, or sends `null` for it: for the
existing account a@x.org the answer is 500 "Server error", for an unknown
email it is 400 "Invalid email or password.", so the two are told apart; for
a password submitted as a string that does not match, the two logins get the
same answer, 400 "Invalid email or password.", and leave the store as it
is. -/
theorem login_missing_password_tells_accounts_apart :
    login (sampleLibs .stripped) { body := { email := .str "a@x.org" } }
      [⟨1, "a@x.org", "#pw", {}, {}, none, none, []⟩] =
      ([⟨1, "a@x.org", "#pw", {}, {}, none, none, []⟩], ⟨500, .message "Server error"⟩) ∧
    login (sampleLibs .stripped) { body := { email := .str "nobody@x.org" } }
      [⟨1, "a@x.org", "#pw", {}, {}, none, none, []⟩] =
      ([⟨1, "a@x.org", "#pw", {}, {}, none, none, []⟩],
        ⟨400, .message "Invalid email or password."⟩) ∧
    login (sampleLibs .stripped) { body := { email := .str "a@x.org", password := .null } }
      [⟨1, "a@x.org", "#pw", {}, {}, none, none, []⟩] =
      ([⟨1, "a@x.org", "#pw", {}, {}, none, none, []⟩], ⟨500, .message "Server error"⟩) ∧
    login (sampleLibs .stripped)
      { body := { email := .str "nobody@x.org", password := .null } }
      [⟨1, "a@x.org", "#pw", {}, {}, none, none, []⟩] =
      ([⟨1, "a@x.org", "#pw", {}, {}, none, none, []⟩],
        ⟨400, .message "Invalid email or password."⟩) ∧
    (∀ (L : Libs) (s : Store) (req₁ req₂ : Req) (u : User) (email₁ password : String),
      UniqueEmails s → req₁.body.email = .str email₁ → (∀ v ∈ s, v.email ≠ email₁) →
      u ∈ s → req₂.body.email = .str u.email → req₂.body.password = .str password →
      L.bcrypt.compare password u.password = false →
      login L req₁ s = (s, ⟨400, .message "Invalid email or password."⟩) ∧
      login L req₂ s = (s, ⟨400, .message "Invalid email or password."⟩)) :=
  ⟨by decide, by decide, by decide, by decide,
   fun L s req₁ req₂ u email₁ password huniq h₁ hunknown hu h₂ hp hwrong =>
     login_string_failures L s req₁ req₂ u email₁ password huniq h₁ hunknown hu h₂ hp hwrong⟩

/-- C5: `authMiddleware` answers 401 when the header yields no token (in
particular when it is absent) and 403 when it yields a token that fails
verification (its signature does not check, or its expiry is reached); in both
cases the response and the store do not depend on the protected handler, which
is not run. Only a token that verifies runs the handler, with the payload
decoded from that token. -/
theorem authMiddleware_denies (J : Jwt) (req : Req)
    (next : Claims → Store → Store × Response) (s : Store) :
    (req.authorization = none →
      authMiddleware J req next s = (s, ⟨401, .statusText "Unauthorized"⟩)) ∧
    (tokenOf req.authorization = none →
      authMiddleware J req next s = (s, ⟨401, .statusText "Unauthorized"⟩)) ∧
    (∀ token, tokenOf req.authorization = some token →
      jwtVerify J req.now token = none →
      authMiddleware J req next s = (s, ⟨403, .statusText "Forbidden"⟩)) ∧
    (∀ token user, tokenOf req.authorization = some token →
      jwtVerify J req.now token = some user →
      authMiddleware J req next s = next user s ∧ J.decode token = some user) ∧
    (∀ token, J.decode token = none → jwtVerify J req.now token = none) ∧
    (∀ token payload exp, J.decode token = some payload → payload.exp = some exp →
      exp ≤ req.now / 1000 → jwtVerify J req.now token = none) := by
  refine ⟨?_, ?_, ?_, ?_, ?_, ?_⟩
  · intro h
    simp [authMiddleware, tokenOf, h]
  · intro h
    simp [authMiddleware, h]
  · intro token ht hv
    simp [authMiddleware, ht, hv]
  · intro token user ht hv
    refine ⟨by simp [authMiddleware, ht, hv], ?_⟩
    unfold jwtVerify at hv
    split at hv
    · exact absurd hv (by simp)
    · cases hd : J.decode token with
      | none => simp [hd] at hv
      | some payload =>
        cases he : payload.exp with
        | none =>
          simp only [hd, he] at hv
          rw [← Option.some.inj hv]
        | some exp =>
          simp only [hd, he] at hv
          split at hv
          · exact absurd hv (by simp)
          · rw [← Option.some.inj hv]
  · intro token hd
    unfold jwtVerify
    simp [hd]
  · intro token payload exp hd he hle
    unfold jwtVerify
    simp [hd, he, hle]

/-- C6, as the claim states it, fails below the second: the token of a login
at T = 1500 ms carries iat = 1 s and exp = 86401 s, and at t = 86401000 ms,
which is before T + 24h = 86401500 ms, its verification fails. -/
theorem minted_credential_expires_early :
    ∃ token,
      login roundtripLibs
        { body := { email := .str "a@x.org", password := .str "pw" }, now := 1500 }
        [⟨1, "a@x.org", "#pw", {}, {}, none, none, []⟩] =
        ([⟨1, "a@x.org", "#pw", {}, {}, none, none, []⟩],
          ⟨200, .login "Login successful!" token 1⟩) ∧
      86401000 < 1500 + 24 * 60 * 60 * 1000 ∧
      jwtVerify roundtripLibs.jwt 86401000 token = none := by
  refine ⟨jwtSign roundtripLibs.jwt 1 "a@x.org" 1500, ?_, by decide, ?_⟩
  · rw [login_found roundtripLibs _ _ ⟨1, "a@x.org", "#pw", {}, {}, none, none, []⟩ "pw"
      (by decide) rfl, if_pos (by decide)]
  · rw [jwtVerify_minted roundtripLibs.jwt 1 "a@x.org" 1500 roundtripLibs_decode_sign
      roundtripLibs_sign_ne_empty, if_pos (by decide)]

/-- C6, amended: a successful login at clock reading T (milliseconds) answers
with a token whose payload is the account's id and email, iat = ⌊T/1000⌋ s
and exp = iat + 24 h. Under a signing scheme that decodes what it signed,
verification at clock reading t yields that payload exactly when
⌊t/1000⌋ < ⌊T/1000⌋ + 86400: at every t up to T + 24h - 1s it succeeds, at
every t from T + 24h on it fails, in whatever state the store then is. -/
theorem minted_credential_window (L : Libs) (req : Req) (s : Store) (u : User)
    (password : String)
    (hfound : findOne s req.body.email = some u)
    (hpassword : req.body.password = .str password)
    (hmatch : L.bcrypt.compare password u.password = true)
    (hroundtrip : ∀ payload, L.jwt.decode (L.jwt.sign payload) = some payload)
    (hnonempty : ∀ payload, L.jwt.sign payload ≠ "") :
    ∃ token,
      login L req s = (s, ⟨200, .login "Login successful!" token u.id⟩) ∧
      L.jwt.decode token =
        some ⟨u.id, u.email, req.now / 1000, some (req.now / 1000 + 24 * 60 * 60)⟩ ∧
      (∀ t, jwtVerify L.jwt t token =
          some ⟨u.id, u.email, req.now / 1000, some (req.now / 1000 + 24 * 60 * 60)⟩ ↔
        t / 1000 < req.now / 1000 + 24 * 60 * 60) ∧
      (∀ t, jwtVerify L.jwt t token = none ↔ req.now / 1000 + 24 * 60 * 60 ≤ t / 1000) ∧
      (∀ t, t + 1000 ≤ req.now + 24 * 60 * 60 * 1000 →
        jwtVerify L.jwt t token =
          some ⟨u.id, u.email, req.now / 1000, some (req.now / 1000 + 24 * 60 * 60)⟩) ∧
      (∀ t, req.now + 24 * 60 * 60 * 1000 ≤ t → jwtVerify L.jwt t token = none) ∧
      (∀ (later : Req) (s' : Store) (next : Claims → Store → Store × Response),
        tokenOf later.authorization = some token →
        (later.now + 1000 ≤ req.now + 24 * 60 * 60 * 1000 →
          authMiddleware L.jwt later next s' =
            next ⟨u.id, u.email, req.now / 1000, some (req.now / 1000 + 24 * 60 * 60)⟩ s') ∧
        (req.now + 24 * 60 * 60 * 1000 ≤ later.now →
          authMiddleware L.jwt later next s' = (s', ⟨403, .statusText "Forbidden"⟩))) := by
  have hv := jwtVerify_minted L.jwt u.id u.email req.now hroundtrip hnonempty
  have hok : ∀ t, t + 1000 ≤ req.now + 24 * 60 * 60 * 1000 →
      jwtVerify L.jwt t (jwtSign L.jwt u.id u.email req.now) =
        some ⟨u.id, u.email, req.now / 1000, some (req.now / 1000 + 24 * 60 * 60)⟩ := by
    intro t ht
    rw [hv t, if_neg (by omega)]
  have hexpired : ∀ t, req.now + 24 * 60 * 60 * 1000 ≤ t →
      jwtVerify L.jwt t (jwtSign L.jwt u.id u.email req.now) = none := by
    intro t ht
    rw [hv t, if_pos (by omega)]
  refine ⟨jwtSign L.jwt u.id u.email req.now, ?_, ?_, ?_, ?_, hok, hexpired, ?_⟩
  · rw [login_found L req s u password hfound hpassword, if_pos hmatch]
  · exact hroundtrip _
  · intro t
    rw [hv t]
    constructor
    · intro h
      by_cases hc : req.now / 1000 + 24 * 60 * 60 ≤ t / 1000
      · rw [if_pos hc] at h; exact absurd h (by simp)
      · omega
    · intro h
      rw [if_neg (by omega)]
  · intro t
    rw [hv t]
    constructor
    · intro h
      by_cases hc : req.now / 1000 + 24 * 60 * 60 ≤ t / 1000
      · exact hc
      · rw [if_neg hc] at h; exact absurd h (by simp)
    · intro h
      rw [if_pos h]
  · intro later s' next htok
    refine ⟨fun ht => ?_, fun ht => ?_⟩
    · simp [authMiddleware, htok, hok later.now ht]
    · simp [authMiddleware, htok, hexpired later.now ht]

/-- C6, amended, for the login of account 1 at T = 1500 ms under the sample
scheme that decodes what it signed: the token verifies at T + 23h59m and is
refused at T + 24h01m. -/
theorem minted_credential_window_witness :
    ∃ token,
      login roundtripLibs
        { body := { email := .str "a@x.org", password := .str "pw" }, now := 1500 }
        [⟨1, "a@x.org", "#pw", {}, {}, none, none, []⟩] =
        ([⟨1, "a@x.org", "#pw", {}, {}, none, none, []⟩],
          ⟨200, .login "Login successful!" token 1⟩) ∧
      jwtVerify roundtripLibs.jwt (1500 + (23 * 60 + 59) * 60 * 1000) token =
        some ⟨1, "a@x.org", 1, some 86401⟩ ∧
      jwtVerify roundtripLibs.jwt (1500 + (24 * 60 + 1) * 60 * 1000) token = none :=
  (minted_credential_window roundtripLibs
    { body := { email := .str "a@x.org", password := .str "pw" }, now := 1500 }
    [⟨1, "a@x.org", "#pw", {}, {}, none, none, []⟩]
    ⟨1, "a@x.org", "#pw", {}, {}, none, none, []⟩ "pw"
    (by decide) rfl (by decide) roundtripLibs_decode_sign roundtripLibs_sign_ne_empty).imp
    fun _ h => ⟨h.1, h.2.2.2.2.1 _ (by decide), h.2.2.2.2.2.1 _ (by decide)⟩

/-- C7: a registration (non-empty email and password) of an email that no
stored account has answers 201; a registration of that email afterwards, in
the store the first one left or in any store that holds the email, answers 400
"Email already exists." whatever non-empty password it carries and leaves the
store as it is; and no reachable store holds two accounts with one email. -/
theorem register_duplicate_email (L : Libs) (req₁ req₂ : Req) (s : Store)
    (email password₁ password₂ : String)
    (he₁ : req₁.body.email = .str email) (hp₁ : req₁.body.password = .str password₁)
    (he₂ : req₂.body.email = .str email) (hp₂ : req₂.body.password = .str password₂)
    (hemail : email ≠ "") (hpassword₁ : password₁ ≠ "") (hpassword₂ : password₂ ≠ "")
    (hnew : ∀ u ∈ s, u.email ≠ email) :
    (register L req₁ s).2 = ⟨201, .message "User registered successfully!"⟩ ∧
    register L req₂ (register L req₁ s).1 =
      ((register L req₁ s).1, ⟨400, .message "Email already exists."⟩) ∧
    (∀ s' : Store, (∃ u ∈ s', u.email = email) →
      register L req₂ s' = (s', ⟨400, .message "Email already exists."⟩)) ∧
    (∀ s' : Store, Reachable L s' → UniqueEmails s') := by
  have hfirst := (register_of_fields L req₁ s email password₁ he₁ hp₁ hemail hpassword₁).2 hnew
  have hagain : ∀ s' : Store, (∃ u ∈ s', u.email = email) →
      register L req₂ s' = (s', ⟨400, .message "Email already exists."⟩) :=
    fun s' h => (register_of_fields L req₂ s' email password₂ he₂ hp₂ hemail hpassword₂).1 h
  refine ⟨by rw [hfirst], ?_, hagain, fun s' h => reachable_uniqueEmails L h⟩
  apply hagain
  rw [hfirst]
  exact ⟨_, List.mem_append_right _ (List.mem_singleton_self _), rfl⟩

/-- C7 from the empty store: a@x.org registers with "pw", then again with
"other". -/
theorem register_duplicate_email_witness :
    (register (sampleLibs .stripped)
      { body := { email := .str "a@x.org", password := .str "pw" } } []).2 =
      ⟨201, .message "User registered successfully!"⟩ ∧
    register (sampleLibs .stripped)
      { body := { email := .str "a@x.org", password := .str "other" } }
      [⟨1, "a@x.org", "#pw", {}, {}, none, none, []⟩] =
      ([⟨1, "a@x.org", "#pw", {}, {}, none, none, []⟩],
        ⟨400, .message "Email already exists."⟩) :=
  ⟨(register_duplicate_email (sampleLibs .stripped)
      { body := { email := .str "a@x.org", password := .str "pw" } }
      { body := { email := .str "a@x.org", password := .str "other" } } []
      "a@x.org" "pw" "other" rfl rfl rfl rfl (by decide) (by decide) (by decide)
      (by decide)).1,
   (register_duplicate_email (sampleLibs .stripped)
      { body := { email := .str "a@x.org", password := .str "pw" } }
      { body := { email := .str "a@x.org", password := .str "other" } } []
      "a@x.org" "pw" "other" rfl rfl rfl rfl (by decide) (by decide) (by decide)
      (by decide)).2.1⟩

/-- C8: register answers 400 "Email and password are required." and leaves the
store as it is whenever the email or the password is absent or the empty
string; with a non-empty email and a non-empty password, of any format, the
request passes the check: it answers "Email already exists." when the store
holds the email and otherwise 201, adding the account. -/
theorem register_requires_fields (L : Libs) (req : Req) (s : Store) :
    (req.body.email = .undefined ∨ req.body.email = .str "" ∨
        req.body.password = .undefined ∨ req.body.password = .str "" →
      register L req s = (s, ⟨400, .message "Email and password are required."⟩)) ∧
    (∀ email password, req.body.email = .str email → req.body.password = .str password →
      email ≠ "" → password ≠ "" →
      ((∃ u ∈ s, u.email = email) →
        register L req s = (s, ⟨400, .message "Email already exists."⟩)) ∧
      ((∀ u ∈ s, u.email ≠ email) →
        register L req s =
          (s ++ [⟨freshId s, email, L.bcrypt.hash password req.salt, {}, {}, none, none, []⟩],
            ⟨201, .message "User registered successfully!"⟩))) :=
  ⟨register_missing_field L req s, register_of_fields L req s⟩

/-- C8 at a request without password, which is refused, and at the email
"not an address", which is accepted. -/
theorem register_requires_fields_witness :
    register (sampleLibs .stripped) { body := { email := .str "a@x.org" } }
      [⟨1, "b@x.org", "#pw", {}, {}, none, none, []⟩] =
      ([⟨1, "b@x.org", "#pw", {}, {}, none, none, []⟩],
        ⟨400, .message "Email and password are required."⟩) ∧
    register (sampleLibs .stripped)
      { body := { email := .str "not an address", password := .str "pw" }, salt := 7 }
      [⟨1, "b@x.org", "#pw", {}, {}, none, none, []⟩] =
      ([⟨1, "b@x.org", "#pw", {}, {}, none, none, []⟩,
        ⟨2, "not an address", "#pw", {}, {}, none, none, []⟩],
        ⟨201, .message "User registered successfully!"⟩) :=
  ⟨(register_requires_fields (sampleLibs .stripped) { body := { email := .str "a@x.org" } }
      [⟨1, "b@x.org", "#pw", {}, {}, none, none, []⟩]).1 (Or.inr (Or.inr (Or.inl rfl))),
   ((register_requires_fields (sampleLibs .stripped)
      { body := { email := .str "not an address", password := .str "pw" }, salt := 7 }
      [⟨1, "b@x.org", "#pw", {}, {}, none, none, []⟩]).2 "not an address" "pw" rfl rfl
      (by decide) (by decide)).2 (by decide)⟩

/-- C9, as the claim states it, fails where the store strips undefined
update keys: after UpdateProfile with personal = {name: "A"} and then
UpdateProfile with only health = {height: 170}, the stored personal is still
{name: "A"}, not the empty sub-structure. -/
theorem updateProfile_omitted_personal_survives :
    (findById
      (handle (sampleLibs .stripped) .updateProfile
        { authorization := some "Bearer t1",
          body := { health := some { height := some 170 } }, now := 300 }
        (handle (sampleLibs .stripped) .updateProfile
          { authorization := some "Bearer t1",
            body := { personal := some { name := some "A" } }, now := 200 }
          [⟨1, "a@x.org", "#pw", {}, {}, none, none, []⟩]).1).1 1).map (fun u => u.personal)
      = some { name := some "A" } ∧
    (findById
      (handle (sampleLibs .stripped) .updateProfile
        { authorization := some "Bearer t1",
          body := { health := some { height := some 170 } }, now := 300 }
        (handle (sampleLibs .stripped) .updateProfile
          { authorization := some "Bearer t1",
            body := { personal := some { name := some "A" } }, now := 200 }
          [⟨1, "a@x.org", "#pw", {}, {}, none, none, []⟩]).1).1 1).map (fun u => u.personal)
      ≠ some {} := by
  decide

/-- C9, amended: for an existing account and a verified credential,
UpdateProfile answers 200 with the updated profile and replaces entirely each
sub-structure the request supplies (the stored value is exactly the supplied
one) and sets lastUpdated; a sub-structure the request omits keeps its
previous value where the store strips undefined update keys, and is empty
where the store writes them as null. -/
theorem updateProfile_replaces_supplied (L : Libs) (req : Req) (s : Store) (c : Claims)
    (u : User) (hcred : credential L.jwt req = some c)
    (hu : findById s c.userId = some u) :
    ∃ u', findById (handle L .updateProfile req s).1 c.userId = some u' ∧
      (handle L .updateProfile req s).2 =
        ⟨200, .messageUser "Profile updated successfully!" u'.selectMinusPassword⟩ ∧
      (∀ personal, req.body.personal = some personal → u'.personal = personal) ∧
      (∀ health, req.body.health = some health → u'.health = health) ∧
      (req.body.personal = none → L.undefinedKeys = .stripped → u'.personal = u.personal) ∧
      (req.body.health = none → L.undefinedKeys = .stripped → u'.health = u.health) ∧
      (req.body.personal = none → L.undefinedKeys = .writtenAsNull → u'.personal = {}) ∧
      (req.body.health = none → L.undefinedKeys = .writtenAsNull → u'.health = {}) ∧
      u'.lastUpdated = some req.now := by
  have h := updateProfile_found L req c hu
  refine ⟨{ u with
      personal := setPath L.undefinedKeys {} req.body.personal u.personal,
      health := setPath L.undefinedKeys {} req.body.health u.health,
      lastUpdated := some req.now }, ?_, ?_, ?_, ?_, ?_, ?_, ?_, ?_, ?_⟩
  · show findById (authMiddleware L.jwt req (updateProfile L req) s).1 c.userId = _
    rw [authMiddleware_of_credential hcred]
    exact h.2
  · show (authMiddleware L.jwt req (updateProfile L req) s).2 = _
    rw [authMiddleware_of_credential hcred]
    exact h.1
  · intro personal hp
    simp [hp, setPath]
  · intro health hh
    simp [hh, setPath]
  · intro hp hm
    simp [hp, hm, setPath]
  · intro hh hm
    simp [hh, hm, setPath]
  · intro hp hm
    simp [hp, hm, setPath]
  · intro hh hm
    simp [hh, hm, setPath]
  · rfl

/-- C9, amended, at a request that supplies both sub-structures to an account
holding other values: the stored personal and health are the supplied ones. -/
theorem updateProfile_replaces_supplied_witness :
    ∃ u', findById
        (handle (sampleLibs .stripped) .updateProfile
          { authorization := some "Bearer t1",
            body := { personal := some { age := some 30 },
                      health := some { height := some 170 } }, now := 300 }
          [⟨1, "a@x.org", "#pw", { name := some "A" }, { weight := some 60 }, none, none, []⟩]).1
        1 = some u' ∧
      u'.personal = { age := some 30 } ∧ u'.health = { height := some 170 } :=
  (updateProfile_replaces_supplied (sampleLibs .stripped)
    { authorization := some "Bearer t1",
      body := { personal := some { age := some 30 },
                health := some { height := some 170 } }, now := 300 }
    [⟨1, "a@x.org", "#pw", { name := some "A" }, { weight := some 60 }, none, none, []⟩]
    ⟨1, "a@x.org", 100, some 86500⟩
    ⟨1, "a@x.org", "#pw", { name := some "A" }, { weight := some 60 }, none, none, []⟩
    (by decide) (by decide)).imp
    fun _ h => ⟨h.1, h.2.2.1 _ rfl, h.2.2.2.1 _ rfl⟩

/-- C10: for an existing account and a verified credential, ListFollowups
answers 200 with a permutation of the account's stored follow-ups in which
every entry's timestamp is at least that of every later entry, and leaves the
store as it is; and when three entries are added to an account without
follow-ups at times t1 < t2 < t3, the list returned afterwards is those
entries in the order t3, t2, t1. -/
theorem getFollowups_newest_first (L : Libs) (req : Req) (s : Store) (c : Claims)
    (u : User) (hcred : credential L.jwt req = some c)
    (hu : findById s c.userId = some u) :
    (∃ list, handle L .getFollowups req s = (s, ⟨200, .followups list⟩) ∧
      list.Perm u.followups ∧
      list.Pairwise (fun a b => a.timestamp ≥ b.timestamp)) ∧
    (∀ (r₁ r₂ r₃ : Req) (c₁ c₂ c₃ : Claims) (x₁ x₂ x₃ : String),
      u.followups = [] →
      credential L.jwt r₁ = some c₁ → credential L.jwt r₂ = some c₂ →
      credential L.jwt r₃ = some c₃ →
      c₁.userId = c.userId → c₂.userId = c.userId → c₃.userId = c.userId →
      r₁.body.text = some x₁ → r₂.body.text = some x₂ → r₃.body.text = some x₃ →
      x₁ ≠ "" → x₂ ≠ "" → x₃ ≠ "" →
      r₁.now < r₂.now → r₂.now < r₃.now →
      (handle L .getFollowups req
        (handle L .addFollowup r₃
          (handle L .addFollowup r₂
            (handle L .addFollowup r₁ s).1).1).1).2 =
        ⟨200, .followups [⟨x₃, r₃.now⟩, ⟨x₂, r₂.now⟩, ⟨x₁, r₁.now⟩]⟩) := by
  constructor
  · refine ⟨u.followups.insertionSort newestFirst, ?_, List.perm_insertionSort _ _, ?_⟩
    · show authMiddleware L.jwt req getFollowups s = _
      rw [authMiddleware_of_credential hcred, getFollowups_found c hu]
    · exact List.sorted_insertionSort newestFirst u.followups
  · intro r₁ r₂ r₃ c₁ c₂ c₃ x₁ x₂ x₃ hempty hc₁ hc₂ hc₃ hi₁ hi₂ hi₃ ht₁ ht₂ ht₃
      hx₁ hx₂ hx₃ h12 h23
    have e₁ : handle L .addFollowup r₁ s = addFollowup r₁ c₁ s :=
      authMiddleware_of_credential hc₁ _ _
    have f₁ := (addFollowup_found r₁ c₁ ht₁ hx₁ (hi₁ ▸ hu)).2
    rw [← e₁, hi₁] at f₁
    generalize (handle L .addFollowup r₁ s).1 = s₁ at f₁ ⊢
    have e₂ : handle L .addFollowup r₂ s₁ = addFollowup r₂ c₂ s₁ :=
      authMiddleware_of_credential hc₂ _ _
    have f₂ := (addFollowup_found r₂ c₂ ht₂ hx₂ (hi₂ ▸ f₁)).2
    rw [← e₂, hi₂] at f₂
    generalize (handle L .addFollowup r₂ s₁).1 = s₂ at f₂ ⊢
    have e₃ : handle L .addFollowup r₃ s₂ = addFollowup r₃ c₃ s₂ :=
      authMiddleware_of_credential hc₃ _ _
    have f₃ := (addFollowup_found r₃ c₃ ht₃ hx₃ (hi₃ ▸ f₂)).2
    rw [← e₃, hi₃] at f₃
    generalize (handle L .addFollowup r₃ s₂).1 = s₃ at f₃ ⊢
    show (authMiddleware L.jwt req getFollowups s₃).2 = _
    rw [authMiddleware_of_credential hcred, getFollowups_found c f₃]
    have n12 : ¬ r₂.now ≤ r₁.now := by omega
    have n23 : ¬ r₃.now ≤ r₂.now := by omega
    have n13 : ¬ r₃.now ≤ r₁.now := by omega
    simp [hempty, List.insertionSort, List.orderedInsert, newestFirst, n12, n23, n13]

/-- C10 at an account whose stored follow-ups carry the timestamps 5, 9, 7:
the list returned carries 9, 7, 5. -/
theorem getFollowups_newest_first_witness :
    (∃ list,
      handle (sampleLibs .stripped) .getFollowups
        { authorization := some "Bearer t1", now := 200 }
        [⟨1, "a@x.org", "#pw", {}, {}, none, none, [⟨"x", 5⟩, ⟨"y", 9⟩, ⟨"z", 7⟩]⟩] =
        ([⟨1, "a@x.org", "#pw", {}, {}, none, none, [⟨"x", 5⟩, ⟨"y", 9⟩, ⟨"z", 7⟩]⟩],
          ⟨200, .followups list⟩) ∧
      list.Perm [⟨"x", 5⟩, ⟨"y", 9⟩, ⟨"z", 7⟩] ∧
      list.Pairwise (fun a b => a.timestamp ≥ b.timestamp)) ∧
    (handle (sampleLibs .stripped) .getFollowups
      { authorization := some "Bearer t1", now := 200 }
      [⟨1, "a@x.org", "#pw", {}, {}, none, none, [⟨"x", 5⟩, ⟨"y", 9⟩, ⟨"z", 7⟩]⟩]).2 =
      ⟨200, .followups [⟨"y", 9⟩, ⟨"z", 7⟩, ⟨"x", 5⟩]⟩ :=
  ⟨(getFollowups_newest_first (sampleLibs .stripped)
      { authorization := some "Bearer t1", now := 200 }
      [⟨1, "a@x.org", "#pw", {}, {}, none, none, [⟨"x", 5⟩, ⟨"y", 9⟩, ⟨"z", 7⟩]⟩]
      ⟨1, "a@x.org", 100, some 86500⟩
      ⟨1, "a@x.org", "#pw", {}, {}, none, none, [⟨"x", 5⟩, ⟨"y", 9⟩, ⟨"z", 7⟩]⟩
      (by decide) (by decide)).1,
   by decide⟩

/-- C11: for an existing account, a verified credential and a text the
guard accepts, AddFollowup answers 201 with exactly the created entry
{text, timestamp = clock of the request}, and the account's stored record
afterwards is the previous record with that entry appended at the end of its
follow-up list. -/
theorem addFollowup_appends_entry (L : Libs) (req : Req) (s : Store) (c : Claims)
    (u : User) (text : String) (hcred : credential L.jwt req = some c)
    (hu : findById s c.userId = some u)
    (htext : req.body.text = some text) (hne : text ≠ "") :
    (handle L .addFollowup req s).2 = ⟨201, .followup ⟨text, req.now⟩⟩ ∧
    findById (handle L .addFollowup req s).1 c.userId =
      some { u with followups := u.followups ++ [⟨text, req.now⟩] } := by
  have e : handle L .addFollowup req s = addFollowup req c s :=
    authMiddleware_of_credential hcred _ _
  rw [e]
  exact addFollowup_found req c htext hne hu

/-- C11 at an account holding one follow-up, to which "better" is added at
time 300. -/
theorem addFollowup_appends_entry_witness :
    (handle (sampleLibs .stripped) .addFollowup
      { authorization := some "Bearer t1", body := { text := some "better" }, now := 300 }
      [⟨1, "a@x.org", "#pw", {}, {}, none, none, [⟨"first", 250⟩]⟩]).2 =
      ⟨201, .followup ⟨"better", 300⟩⟩ ∧
    findById
      (handle (sampleLibs .stripped) .addFollowup
        { authorization := some "Bearer t1", body := { text := some "better" }, now := 300 }
        [⟨1, "a@x.org", "#pw", {}, {}, none, none, [⟨"first", 250⟩]⟩]).1 1 =
      some ⟨1, "a@x.org", "#pw", {}, {}, none, none, [⟨"first", 250⟩, ⟨"better", 300⟩]⟩ :=
  addFollowup_appends_entry (sampleLibs .stripped)
    { authorization := some "Bearer t1", body := { text := some "better" }, now := 300 }
    [⟨1, "a@x.org", "#pw", {}, {}, none, none, [⟨"first", 250⟩]⟩]
    ⟨1, "a@x.org", 100, some 86500⟩
    ⟨1, "a@x.org", "#pw", {}, {}, none, none, [⟨"first", 250⟩]⟩ "better"
    (by decide) (by decide) rfl (by decide)

/-- C12 at the text of three spaces: the server stores the entry and answers
201, where the claim has it refused with 400 and nothing stored; the page's
own `handleSubmit` refuses that text, and the server refuses the empty text. -/
theorem addFollowup_whitespace_text_stored :
    handle (sampleLibs .stripped) .addFollowup
      { authorization := some "Bearer t1", body := { text := some "   " }, now := 300 }
      [⟨1, "a@x.org", "#pw", {}, {}, none, none, []⟩] =
      ([⟨1, "a@x.org", "#pw", {}, {}, none, none, [⟨"   ", 300⟩]⟩],
        ⟨201, .followup ⟨"   ", 300⟩⟩) ∧
    Followups.handleSubmit "   " (some "t1") = none ∧
    handle (sampleLibs .stripped) .addFollowup
      { authorization := some "Bearer t1", body := { text := some "" }, now := 300 }
      [⟨1, "a@x.org", "#pw", {}, {}, none, none, []⟩] =
      ([⟨1, "a@x.org", "#pw", {}, {}, none, none, []⟩],
        ⟨400, .message "Feedback text is required."⟩) := by
  decide

/-- C13: in every store reachable from the empty one by requests of any
route with any body, each account's stored classification is unset or one of
"vata", "pitta", "kapha". -/
theorem classification_invariant (L : Libs) (s : Store) (h : Reachable L s) :
    ∀ u ∈ s, u.analysisResult = none ∨ u.analysisResult = some "vata" ∨
      u.analysisResult = some "pitta" ∨ u.analysisResult = some "kapha" := by
  induction h with
  | empty => intro u hu; exact absurd hu (List.not_mem_nil u)
  | step route req _ ih => exact handle_classification L route req _ ih

/-- C13 at the store reached by a registration and a SetClassification
with "kapha". -/
theorem classification_invariant_witness :
    Reachable (sampleLibs .stripped)
      [⟨1, "a@x.org", "#pw", {}, {}, some "kapha", none, []⟩] ∧
    ∀ u ∈ [(⟨1, "a@x.org", "#pw", {}, {}, some "kapha", none, []⟩ : User)],
      u.analysisResult = none ∨ u.analysisResult = some "vata" ∨
      u.analysisResult = some "pitta" ∨ u.analysisResult = some "kapha" :=
  ⟨Reachable.step .saveAnalysis
      { authorization := some "Bearer t1", body := { analysisResult := some "kapha" },
        now := 200 }
      (Reachable.step .register
        { body := { email := .str "a@x.org", password := .str "pw" } } Reachable.empty),
   classification_invariant (sampleLibs .stripped) _
     (Reachable.step .saveAnalysis
      { authorization := some "Bearer t1", body := { analysisResult := some "kapha" },
        now := 200 }
      (Reachable.step .register
        { body := { email := .str "a@x.org", password := .str "pw" } } Reachable.empty))⟩

/-- C14: whatever the route and the request, an account stored before the
operation is stored after it, and its follow-up list before is a prefix of its
follow-up list after: no stored entry is edited, deleted or moved. -/
theorem followups_append_only (L : Libs) (route : Route) (req : Req) (s : Store)
    (id : Nat) (u : User) (hu : findById s id = some u) :
    ∃ u', findById (handle L route req s).1 id = some u' ∧
      u.followups <+: u'.followups := by
  let P : Store → Prop := fun t =>
    ∃ u', findById t id = some u' ∧ u.followups <+: u'.followups
  show P (handle L route req s).1
  have hP : P s := ⟨u, hu, List.prefix_refl _⟩
  have hupd : ∀ (a : Nat) (f : User → User), (∀ v, (f v).id = v.id) →
      (∀ v, v.followups <+: (f v).followups) → P (findByIdAndUpdate a f s).1 := by
    intro a f hid hpre
    show ∃ u', findById (findByIdAndUpdate a f s).1 id = some u' ∧ _
    rw [findById_findByIdAndUpdate a f hid id s, hu]
    by_cases h : id = a
    · rw [if_pos h]; exact ⟨f u, rfl, hpre u⟩
    · rw [if_neg h]; exact ⟨u, rfl, List.prefix_refl _⟩
  cases route with
  | register =>
    show P (register L req s).1
    rcases register_store L req s with hs | ⟨email, password, _, _, _, _, _, hs⟩
    · rw [hs]; exact hP
    · rw [hs]; exact ⟨u, findById_append_of_some hu _, List.prefix_refl _⟩
  | login => show P (login L req s).1; rw [login_store]; exact hP
  | getProfile =>
    exact authMiddleware_store P _ _ _ _ hP (fun c => by rw [getProfile_store]; exact hP)
  | updateProfile =>
    refine authMiddleware_store P _ _ _ _ hP (fun c => ?_)
    rw [updateProfile_store]
    exact hupd _ _ (by intro v; rfl) (by intro v; exact List.prefix_refl _)
  | saveAnalysis =>
    refine authMiddleware_store P _ _ _ _ hP (fun c => ?_)
    rcases saveAnalysis_store req c s with hs | ⟨_, hs⟩
    · rw [hs]; exact hP
    · rw [hs]
      exact hupd _ _ (by intro v; rfl) (by intro v; exact List.prefix_refl _)
  | getFollowups =>
    exact authMiddleware_store P _ _ _ _ hP (fun c => by rw [getFollowups_store]; exact hP)
  | addFollowup =>
    refine authMiddleware_store P _ _ _ _ hP (fun c => ?_)
    rcases addFollowup_store req c s with hs | ⟨text, _, _, hs⟩
    · rw [hs]; exact hP
    · rw [hs]
      exact hupd _ _ (by intro v; rfl) (by intro v; exact List.prefix_append _ _)

/-- C14 at ListFollowups on an account whose stored follow-ups are not in
sorted order: the stored list stays as it was. -/
theorem followups_append_only_witness :
    ∃ u', findById
        (handle (sampleLibs .stripped) .getFollowups
          { authorization := some "Bearer t1", now := 200 }
          [⟨1, "a@x.org", "#pw", {}, {}, none, none, [⟨"x", 5⟩, ⟨"y", 9⟩]⟩]).1 1 = some u' ∧
      [(⟨"x", 5⟩ : Followup), ⟨"y", 9⟩] <+: u'.followups :=
  followups_append_only (sampleLibs .stripped) .getFollowups
    { authorization := some "Bearer t1", now := 200 }
    [⟨1, "a@x.org", "#pw", {}, {}, none, none, [⟨"x", 5⟩, ⟨"y", 9⟩]⟩] 1
    ⟨1, "a@x.org", "#pw", {}, {}, none, none, [⟨"x", 5⟩, ⟨"y", 9⟩]⟩ (by decide)

/-- C15: a protected operation run with a verified credential of account a
leaves every record other than a's as it was, and its response is the same in
any two stores that agree on a's record; this for every request body. -/
theorem protected_operations_own_account (L : Libs) (route : Route) (req : Req)
    (s : Store) (c : Claims)
    (hroute : route ≠ .register ∧ route ≠ .login)
    (hcred : credential L.jwt req = some c) :
    (handle L route req s).1.filter (fun v => v.id != c.userId) =
      s.filter (fun v => v.id != c.userId) ∧
    (∀ id, id ≠ c.userId → findById (handle L route req s).1 id = findById s id) ∧
    (∀ s₂ : Store, findById s₂ c.userId = findById s c.userId →
      (handle L route req s₂).2 = (handle L route req s).2) := by
  have hfilter := handle_filter L route req c s hroute hcred
  refine ⟨hfilter, ?_, ?_⟩
  · intro id hid
    have hb : ∀ v : User, (v.id == id) = ((v.id != c.userId) && (v.id == id)) := by
      intro v
      by_cases hv : v.id = id
      · have : v.id ≠ c.userId := fun h => hid (hv.symm.trans h)
        simp [hv, hid]
      · simp [hv]
    have key : ∀ t : Store, findById t id =
        findById (t.filter (fun v => v.id != c.userId)) id := by
      intro t
      unfold findById
      rw [List.find?_filter]
      congr 1
      funext v
      rw [Bool.decide_and, Bool.decide_eq_true, Bool.decide_eq_true]
      exact hb v
    rw [key (handle L route req s).1, hfilter, ← key s]
  · intro s₂ h
    exact handle_congr L route req c s₂ s hroute hcred (by rw [h])

/-- C15 at UpdateProfile by account 1 in a store of two accounts: the record
of account 2 is as before. -/
theorem protected_operations_own_account_witness :
    findById
      (handle (sampleLibs .stripped) .updateProfile
        { authorization := some "Bearer t1",
          body := { email := .str "b@x.org", personal := some { name := some "A" } },
          now := 200 }
        [⟨1, "a@x.org", "#pw", {}, {}, none, none, []⟩,
          ⟨2, "b@x.org", "#secret", { name := some "B" }, {}, none, none, []⟩]).1 2 =
      findById
        [⟨1, "a@x.org", "#pw", {}, {}, none, none, []⟩,
          ⟨2, "b@x.org", "#secret", { name := some "B" }, {}, none, none, []⟩] 2 :=
  (protected_operations_own_account (sampleLibs .stripped) .updateProfile
    { authorization := some "Bearer t1",
      body := { email := .str "b@x.org", personal := some { name := some "A" } },
      now := 200 }
    [⟨1, "a@x.org", "#pw", {}, {}, none, none, []⟩,
      ⟨2, "b@x.org", "#secret", { name := some "B" }, {}, none, none, []⟩]
    ⟨1, "a@x.org", 100, some 86500⟩ (by decide) (by decide)).2.1 2 (by decide)

/-- C16: for an existing account and a verified credential, the profile
GetProfile returns is the stored record with the password field removed, and
so is the profile UpdateProfile and SetClassification return (of the record as
updated); AddFollowup returns the created entry only; and the response of
every protected operation is the same whatever password hashes the store
holds, so no stored hash shows in it. -/
theorem responses_exclude_password (L : Libs) (req : Req) (s : Store) (c : Claims)
    (u : User) (hcred : credential L.jwt req = some c)
    (hu : findById s c.userId = some u) :
    (handle L .getProfile req s).2 =
      ⟨200, .user ⟨u.id, u.email, u.personal, u.health, u.analysisResult, u.lastUpdated,
        u.followups⟩⟩ ∧
    (∃ u', findById (handle L .updateProfile req s).1 c.userId = some u' ∧
      (handle L .updateProfile req s).2 =
        ⟨200, .messageUser "Profile updated successfully!"
          ⟨u'.id, u'.email, u'.personal, u'.health, u'.analysisResult, u'.lastUpdated,
            u'.followups⟩⟩) ∧
    ((req.body.analysisResult = some "vata" ∨ req.body.analysisResult = some "pitta" ∨
        req.body.analysisResult = some "kapha") →
      ∃ u', findById (handle L .saveAnalysis req s).1 c.userId = some u' ∧
        (handle L .saveAnalysis req s).2 =
          ⟨200, .messageUser "Analysis saved!"
            ⟨u'.id, u'.email, u'.personal, u'.health, u'.analysisResult, u'.lastUpdated,
              u'.followups⟩⟩) ∧
    (∀ text, req.body.text = some text → text ≠ "" →
      (handle L .addFollowup req s).2 = ⟨201, .followup ⟨text, req.now⟩⟩) ∧
    (∀ route, route ≠ .register ∧ route ≠ .login → ∀ password : User → String,
      (handle L route req (s.map (fun v => { v with password := password v }))).2 =
        (handle L route req s).2) := by
  refine ⟨?_, ?_, ?_, ?_, ?_⟩
  · show (authMiddleware L.jwt req getProfile s).2 = _
    rw [authMiddleware_of_credential hcred, getProfile_found c hu]
    rfl
  · have h := updateProfile_found L req c hu
    have e : handle L .updateProfile req s = updateProfile L req c s :=
      authMiddleware_of_credential hcred _ _
    rw [e]
    exact ⟨_, h.2, h.1⟩
  · intro hvalid
    have h := saveAnalysis_found req c (contains_of_validAnalysis hvalid) hu
    have e : handle L .saveAnalysis req s = saveAnalysis req c s :=
      authMiddleware_of_credential hcred _ _
    rw [e]
    exact ⟨_, h.2, h.1⟩
  · intro text ht hne
    show (authMiddleware L.jwt req (addFollowup req) s).2 = _
    rw [authMiddleware_of_credential hcred]
    exact (addFollowup_found req c ht hne hu).1
  · intro route hroute password
    exact handle_congr L route req c _ s hroute hcred (findById_map_password password s c.userId)

/-- C16 at GetProfile by account 1, whose stored hash is "#pw". -/
theorem responses_exclude_password_witness :
    (handle (sampleLibs .stripped) .getProfile
      { authorization := some "Bearer t1", now := 200 }
      [⟨1, "a@x.org", "#pw", { name := some "A" }, {}, some "vata", some 150, []⟩]).2 =
      ⟨200, .user ⟨1, "a@x.org", { name := some "A" }, {}, some "vata", some 150, []⟩⟩ :=
  (responses_exclude_password (sampleLibs .stripped)
    { authorization := some "Bearer t1", now := 200 }
    [⟨1, "a@x.org", "#pw", { name := some "A" }, {}, some "vata", some 150, []⟩]
    ⟨1, "a@x.org", 100, some 86500⟩
    ⟨1, "a@x.org", "#pw", { name := some "A" }, {}, some "vata", some 150, []⟩
    (by decide) (by decide)).1

/-- C17: a registration that answers 201 carried an email and a password,
and the store after it is the store before it followed by exactly one new
account with that email, the bcrypt hash of that password as stored password
(so not the password, whenever the hash of a password differs from it), empty
personal and health, no follow-ups, no classification and no lastUpdated;
one account more, the earlier ones unchanged. -/
theorem register_adds_one_account (L : Libs) (req : Req) (s : Store)
    (hcreated : (register L req s).2.status = 201) :
    ∃ email password, req.body.email = .str email ∧ req.body.password = .str password ∧
      (register L req s).1 =
        s ++ [⟨freshId s, email, L.bcrypt.hash password req.salt, {}, {}, none, none, []⟩] ∧
      (register L req s).1.length = s.length + 1 ∧
      (L.bcrypt.hash password req.salt ≠ password →
        ∀ v ∈ (register L req s).1, v ∉ s → v.password ≠ password) := by
  rcases register_cases L req s with h | h | h | ⟨email, password, he, hp, _, _, _, h⟩
  · rw [h] at hcreated; exact absurd hcreated (by simp)
  · rw [h] at hcreated; exact absurd hcreated (by simp)
  · rw [h] at hcreated; exact absurd hcreated (by simp)
  · refine ⟨email, password, he, hp, by rw [h], by rw [h]; simp, ?_⟩
    intro hhash v hv hnot
    rw [h] at hv
    rcases List.mem_append.mp hv with hv | hv
    · exact absurd hv hnot
    · rw [List.mem_singleton.mp hv]
      exact hhash

/-- C17 at the registration of b@x.org with "secret" in a store of one
account. -/
theorem register_adds_one_account_witness :
    (register (sampleLibs .stripped)
      { body := { email := .str "b@x.org", password := .str "secret" } }
      [⟨1, "a@x.org", "#pw", { name := some "A" }, {}, none, none, []⟩]).2.status = 201 ∧
    ∃ email password,
      (register (sampleLibs .stripped)
        { body := { email := .str "b@x.org", password := .str "secret" } }
        [⟨1, "a@x.org", "#pw", { name := some "A" }, {}, none, none, []⟩]).1 =
        [⟨1, "a@x.org", "#pw", { name := some "A" }, {}, none, none, []⟩] ++
          [⟨2, email, (sampleLibs .stripped).bcrypt.hash password 0, {}, {}, none, none, []⟩] :=
  ⟨by decide,
   (register_adds_one_account (sampleLibs .stripped)
      { body := { email := .str "b@x.org", password := .str "secret" } }
      [⟨1, "a@x.org", "#pw", { name := some "A" }, {}, none, none, []⟩] (by decide)).imp
      fun _ h => h.imp fun _ h' => h'.2.2.1⟩

/-- C18: `calculateDosha` returns the same label on a list of answers and on
every permutation of it. -/
theorem calculateDosha_perm (answers permuted : List String)
    (hperm : permuted.Perm answers) :
    calculateDosha permuted = calculateDosha answers := by
  rw [calculateDosha_eq, calculateDosha_eq, hperm.count_eq, hperm.count_eq, hperm.count_eq]

/-- C18 at [pitta, kapha, kapha, vata, pitta] and its reversal. -/
theorem calculateDosha_perm_witness :
    calculateDosha ["pitta", "vata", "kapha", "kapha", "pitta"] =
      calculateDosha ["pitta", "kapha", "kapha", "vata", "pitta"] :=
  calculateDosha_perm ["pitta", "vata", "kapha", "kapha", "pitta"]
    ["pitta", "kapha", "kapha", "vata", "pitta"] (by decide)

/-- C19: a protected operation (GetProfile, UpdateProfile, SetClassification
with one of the three values, ListFollowups, AddFollowup with a non-empty
text) run with a verified credential whose account id no stored account has
answers 404 "User not found." and leaves the store as it is, so no account
with that id exists afterwards either. -/
theorem protected_missing_account (L : Libs) (route : Route) (req : Req) (s : Store)
    (c : Claims) (hroute : route ≠ .register ∧ route ≠ .login)
    (hcred : credential L.jwt req = some c)
    (hmissing : findById s c.userId = none)
    (hvalue : route = .saveAnalysis →
      req.body.analysisResult = some "vata" ∨ req.body.analysisResult = some "pitta" ∨
        req.body.analysisResult = some "kapha")
    (htext : route = .addFollowup → ∃ text, req.body.text = some text ∧ text ≠ "") :
    handle L route req s = (s, ⟨404, .message "User not found."⟩) ∧
    findById (handle L route req s).1 c.userId = none := by
  have key : handle L route req s = (s, ⟨404, .message "User not found."⟩) := by
    cases route with
    | register => exact absurd rfl hroute.1
    | login => exact absurd rfl hroute.2
    | getProfile =>
      show authMiddleware L.jwt req getProfile s = _
      rw [authMiddleware_of_credential hcred, getProfile_missing c hmissing]
    | updateProfile =>
      show authMiddleware L.jwt req (updateProfile L req) s = _
      rw [authMiddleware_of_credential hcred, updateProfile_missing L req c hmissing]
    | saveAnalysis =>
      show authMiddleware L.jwt req (saveAnalysis req) s = _
      rw [authMiddleware_of_credential hcred,
        saveAnalysis_missing req c (contains_of_validAnalysis (hvalue rfl)) hmissing]
    | getFollowups =>
      show authMiddleware L.jwt req getFollowups s = _
      rw [authMiddleware_of_credential hcred, getFollowups_missing c hmissing]
    | addFollowup =>
      obtain ⟨text, ht, hne⟩ := htext rfl
      show authMiddleware L.jwt req (addFollowup req) s = _
      rw [authMiddleware_of_credential hcred, addFollowup_missing req c ht hne hmissing]
  exact ⟨key, by rw [key]; exact hmissing⟩

/-- C19 at AddFollowup with the token of account 1 in a store that holds
account 2 only. -/
theorem protected_missing_account_witness :
    handle (sampleLibs .stripped) .addFollowup
      { authorization := some "Bearer t1", body := { text := some "hello" }, now := 200 }
      [⟨2, "b@x.org", "#secret", {}, {}, none, none, []⟩] =
      ([⟨2, "b@x.org", "#secret", {}, {}, none, none, []⟩],
        ⟨404, .message "User not found."⟩) :=
  (protected_missing_account (sampleLibs .stripped) .addFollowup
    { authorization := some "Bearer t1", body := { text := some "hello" }, now := 200 }
    [⟨2, "b@x.org", "#secret", {}, {}, none, none, []⟩]
    ⟨1, "a@x.org", 100, some 86500⟩ (by decide) (by decide) (by decide)
    (fun h => absurd h (by decide)) (fun _ => ⟨"hello", rfl, by decide⟩)).1

/-- C20: for every list of answers, the empty one included (which gives
"vata"), `calculateDosha` returns "vata", "pitta" or "kapha", as is every
option value of the quiz; so the body the quiz page posts, sent with a
verified credential, is never answered 400 by the analysis handler: it is
saved with 200 when the account exists. -/
theorem calculateDosha_accepted (L : Libs) (answers : List String) (req : Req) (s : Store)
    (c : Claims) (hcred : credential L.jwt req = some c)
    (hbody : req.body = PrakritiAnalysis.handleSubmit answers) :
    (calculateDosha answers = "vata" ∨ calculateDosha answers = "pitta" ∨
      calculateDosha answers = "kapha") ∧
    calculateDosha [] = "vata" ∧
    (∀ v ∈ optionValues, v = "vata" ∨ v = "pitta" ∨ v = "kapha") ∧
    (handle L .saveAnalysis req s).2.status ≠ 400 ∧
    (∀ u, findById s c.userId = some u →
      (handle L .saveAnalysis req s).2.status = 200 ∧
      findById (handle L .saveAnalysis req s).1 c.userId =
        some { u with analysisResult := some (calculateDosha answers) }) := by
  have hlabel := calculateDosha_label answers
  have hres : req.body.analysisResult = some (calculateDosha answers) := by
    rw [hbody]; rfl
  have hvalid : [some "vata", some "pitta", some "kapha"].contains req.body.analysisResult
      = true := by
    apply contains_of_validAnalysis
    rw [hres]
    rcases hlabel with h | h | h <;> rw [h] <;> simp
  have e : handle L .saveAnalysis req s = saveAnalysis req c s :=
    authMiddleware_of_credential hcred _ _
  refine ⟨hlabel, by decide, by decide, ?_, ?_⟩
  · rw [e]
    cases hu : findById s c.userId with
    | none => rw [saveAnalysis_missing req c hvalid hu]; simp
    | some u => rw [(saveAnalysis_found req c hvalid hu).1]; simp
  · intro u hu
    rw [e]
    have h := saveAnalysis_found req c hvalid hu
    refine ⟨by rw [h.1], ?_⟩
    rw [h.2, hres]

/-- C20 at the answers [kapha, kapha, pitta] posted by account 1. -/
theorem calculateDosha_accepted_witness :
    (handle (sampleLibs .stripped) .saveAnalysis
      { authorization := some "Bearer t1",
        body := PrakritiAnalysis.handleSubmit ["kapha", "kapha", "pitta"], now := 200 }
      [⟨1, "a@x.org", "#pw", {}, {}, none, none, []⟩]).2.status ≠ 400 :=
  (calculateDosha_accepted (sampleLibs .stripped) ["kapha", "kapha", "pitta"]
    { authorization := some "Bearer t1",
      body := PrakritiAnalysis.handleSubmit ["kapha", "kapha", "pitta"], now := 200 }
    [⟨1, "a@x.org", "#pw", {}, {}, none, none, []⟩]
    ⟨1, "a@x.org", 100, some 86500⟩ (by decide) rfl).2.2.2.1

/-- C21: `authMiddleware` answers 401, whatever the handler, exactly when the
header is absent or is a non-empty string without a space. For every other
header (empty, or holding a space) the token is the second space-separated
segment (the empty string for the empty header): it is answered 403 when that
token fails verification and handed to the handler otherwise. So the empty
header, "Bearer " and "Bearer  " followed by any token (two spaces) get 403;
and the first segment is not looked at: two headers that differ in it only get
the same answer. -/
theorem authMiddleware_header_segments (J : Jwt) (req : Req) (s : Store) :
    ((∀ next, authMiddleware J req next s = (s, ⟨401, .statusText "Unauthorized"⟩)) ↔
      (req.authorization = none ∨
        ∃ h, req.authorization = some h ∧ h ≠ "" ∧ ' ' ∉ h.toList)) ∧
    (∀ h, req.authorization = some h → h = "" ∨ ' ' ∈ h.toList →
      ∃ token, tokenOf req.authorization = some token ∧
        (h ≠ "" → ∃ segment, (split ' ' h.toList).get? 1 = some segment ∧
          token = String.mk segment) ∧
        (∀ next, jwtVerify J req.now token = none →
          authMiddleware J req next s = (s, ⟨403, .statusText "Forbidden"⟩)) ∧
        (∀ next user, jwtVerify J req.now token = some user →
          authMiddleware J req next s = next user s)) ∧
    (∀ next, req.authorization = some "" →
      authMiddleware J req next s = (s, ⟨403, .statusText "Forbidden"⟩)) ∧
    (∀ next, req.authorization = some "Bearer " →
      authMiddleware J req next s = (s, ⟨403, .statusText "Forbidden"⟩)) ∧
    (∀ next (token : List Char),
      req.authorization = some (String.mk ("Bearer  ".toList ++ token)) →
      authMiddleware J req next s = (s, ⟨403, .statusText "Forbidden"⟩)) ∧
    (∀ next (scheme₁ scheme₂ rest : List Char), ' ' ∉ scheme₁ → ' ' ∉ scheme₂ →
      authMiddleware J { req with authorization := some (String.mk (scheme₁ ++ ' ' :: rest)) }
          next s =
        authMiddleware J { req with authorization := some (String.mk (scheme₂ ++ ' ' :: rest)) }
          next s) := by
  refine ⟨⟨?_, ?_⟩, ?_, ?_, ?_, ?_, ?_⟩
  · intro hall
    apply (tokenOf_eq_none_iff req.authorization).mp
    cases ht : tokenOf req.authorization with
    | none => rfl
    | some token =>
      have h := hall (fun _ t => (t, ⟨200, .empty⟩))
      rw [authMiddleware_of_token J req _ s token ht] at h
      cases hv : jwtVerify J req.now token with
      | none => rw [hv] at h; simp at h
      | some user => rw [hv] at h; simp at h
  · intro hcond next
    have ht := (tokenOf_eq_none_iff req.authorization).mpr hcond
    unfold authMiddleware
    rw [ht]
  · intro h hh hcond
    cases ht : tokenOf req.authorization with
    | none =>
      rcases (tokenOf_eq_none_iff req.authorization).mp ht with hn | ⟨h', hh', hne, hns⟩
      · rw [hh] at hn; exact absurd hn (by simp)
      · rw [hh] at hh'
        have e : h = h' := Option.some.inj hh'
        subst e
        rcases hcond with he | hs
        · exact absurd he hne
        · exact absurd hs hns
    | some token =>
      refine ⟨token, rfl, ?_, ?_, ?_⟩
      · intro hne
        rw [hh] at ht
        unfold tokenOf at ht
        simp only [if_neg hne] at ht
        cases hg : (split ' ' h.toList).get? 1 with
        | none => rw [hg] at ht; exact absurd ht (by simp)
        | some segment =>
          rw [hg] at ht
          exact ⟨segment, rfl, (Option.some.inj ht).symm⟩
      · intro next hv
        rw [authMiddleware_of_token J req next s token ht, hv]
      · intro next user hv
        rw [authMiddleware_of_token J req next s token ht, hv]
  · intro next hh
    have ht : tokenOf req.authorization = some "" := by rw [hh]; rfl
    rw [authMiddleware_of_token J req next s "" ht, jwtVerify_empty]
  · intro next hh
    have ht : tokenOf req.authorization = some "" := by rw [hh]; decide
    rw [authMiddleware_of_token J req next s "" ht, jwtVerify_empty]
  · intro next token hh
    have ht : tokenOf req.authorization = some "" := by
      rw [hh]
      have e : "Bearer  ".toList ++ token = "Bearer".toList ++ ' ' :: (' ' :: token) := rfl
      rw [e, tokenOf_scheme "Bearer".toList (' ' :: token) (by decide), split_cons_sep]
      rfl
    rw [authMiddleware_of_token J req next s "" ht, jwtVerify_empty]
  · intro next scheme₁ scheme₂ rest h₁ h₂
    unfold authMiddleware
    simp only [tokenOf_scheme scheme₁ rest h₁, tokenOf_scheme scheme₂ rest h₂]

/-- C21 at the header "Bearer" (one word, 401), at "Basic t1" (another scheme
word before a valid token, which reaches the handler) and at "Bearer  t1" (two
spaces, 403). -/
theorem authMiddleware_header_segments_witness :
    handle (sampleLibs .stripped) .getProfile { authorization := some "Bearer", now := 200 }
      [⟨1, "a@x.org", "#pw", {}, {}, none, none, []⟩] =
      ([⟨1, "a@x.org", "#pw", {}, {}, none, none, []⟩], ⟨401, .statusText "Unauthorized"⟩) ∧
    (handle (sampleLibs .stripped) .getProfile
      { authorization := some "Basic t1", now := 200 }
      [⟨1, "a@x.org", "#pw", {}, {}, none, none, []⟩]).2.status = 200 ∧
    handle (sampleLibs .stripped) .getProfile
      { authorization := some "Bearer  t1", now := 200 }
      [⟨1, "a@x.org", "#pw", {}, {}, none, none, []⟩] =
      ([⟨1, "a@x.org", "#pw", {}, {}, none, none, []⟩], ⟨403, .statusText "Forbidden"⟩) :=
  ⟨(authMiddleware_header_segments (sampleLibs .stripped).jwt
      { authorization := some "Bearer", now := 200 }
      [⟨1, "a@x.org", "#pw", {}, {}, none, none, []⟩]).1.mpr
      (Or.inr ⟨"Bearer", rfl, by decide, by decide⟩) getProfile,
   by decide,
   (authMiddleware_header_segments (sampleLibs .stripped).jwt
      { authorization := some "Bearer  t1", now := 200 }
      [⟨1, "a@x.org", "#pw", {}, {}, none, none, []⟩]).2.2.2.2.1 getProfile "t1".toList rfl⟩

end HealthApp
